import Mathlib

/-!
# Verification of the Octopus Energy Japan integration

A shallow embedding of `custom_components/octopus_energy_jp` (`api.py`,
`sensor.py`).  Python `decimal.Decimal` values are modelled as exact
rationals (`ℚ`); JSON payloads are modelled by the inductive `JValue`;
Python exceptions raised by lookups and conversions are modelled by
`Except PyExc`; wall-clock datetimes are modelled by explicit
year/month/day/hour/minute records (the `Asia/Tokyo` zone is a fixed
UTC+9 offset, which pytz reports for every modern instant).
-/

namespace OEJP

/-- The Python exception classes that the sensor code can raise or catch.
`keyError`/`indexError`/`typeError` are the classes named in the sensors'
`except` tuples; `valueError` models `datetime.fromisoformat` failures
(and `calendar.monthrange`'s `IllegalMonthError`); `invalidOperation`
models `decimal.InvalidOperation`; `attrError` models `AttributeError`
from calling `.get` on a non-dict. -/
inductive PyExc where
  | keyError
  | indexError
  | typeError
  | valueError
  | invalidOperation
  | attrError
deriving DecidableEq, Repr

/-- A UTC wall-clock instant, as produced by
`datetime.datetime.fromisoformat` on the API's `startAt` strings.
Seconds are irrelevant to every computation in the source (only the
local calendar date is ever used), so they are not modelled. -/
structure DateTime where
  year : Int
  month : Nat
  day : Nat
  hour : Nat
  minute : Nat
deriving DecidableEq, Repr

/-- A calendar date (`datetime.date`). -/
structure Date where
  year : Int
  month : Nat
  day : Nat
deriving DecidableEq, Repr

/-- `calendar.isleap` (also the rule used by `datetime`). -/
def isLeap (y : Int) : Bool :=
  y % 4 == 0 && (y % 100 != 0 || y % 400 == 0)

/-- Number of days of month `m` of year `y`
(`calendar.monthrange(y, m)[1]`); `0` for an invalid month number
(the caller models `IllegalMonthError` separately). -/
def daysInMonth (y : Int) (m : Nat) : Nat :=
  match m with
  | 1 => 31
  | 2 => if isLeap y then 29 else 28
  | 3 => 31
  | 4 => 30
  | 5 => 31
  | 6 => 30
  | 7 => 31
  | 8 => 31
  | 9 => 30
  | 10 => 31
  | 11 => 30
  | 12 => 31
  | _ => 0

/-- The calendar date one day before `d` (`d - datetime.timedelta(days=1)`
for valid dates). -/
def prevDate (d : Date) : Date :=
  if 2 ≤ d.day then { d with day := d.day - 1 }
  else if 2 ≤ d.month then ⟨d.year, d.month - 1, daysInMonth d.year (d.month - 1)⟩
  else ⟨d.year - 1, 12, 31⟩

/-- The calendar date one day after `d` (for valid dates). -/
def nextDate (d : Date) : Date :=
  if d.day + 1 ≤ daysInMonth d.year d.month then { d with day := d.day + 1 }
  else if d.month + 1 ≤ 12 then ⟨d.year, d.month + 1, 1⟩
  else ⟨d.year + 1, 1, 1⟩

/-- The Tokyo-local calendar date of a UTC instant:
`dt_utc.astimezone(pytz.timezone("Asia/Tokyo")).date()`.  `Asia/Tokyo`
is UTC+9 with no daylight saving, so the local date is the UTC date,
advanced by one day when the UTC hour is 15 or later. -/
def tokyoDate (t : DateTime) : Date :=
  if t.hour + 9 < 24 then ⟨t.year, t.month, t.day⟩
  else nextDate ⟨t.year, t.month, t.day⟩

/-- The year and month of the calendar month before the month of `d`,
computed the way `OctopusLastMonthConsumptionSensor.native_value` does:
`d.replace(day=1) - timedelta(days=1)`, then take that date's year and
month. -/
def prevMonthOf (d : Date) : Int × Nat :=
  let lastDayPrev := prevDate ⟨d.year, d.month, 1⟩
  (lastDayPrev.year, lastDayPrev.month)

/-- `round(q, 2)` on a `decimal.Decimal`: round to two decimal places
with ties going to the even hundredth (`ROUND_HALF_EVEN`, the default
`decimal` rounding used by `Decimal.__round__`). -/
def roundHalfEven2 (q : ℚ) : ℚ :=
  let x : ℚ := q * 100
  let f : Int := ⌊x⌋
  let r : ℚ := x - (f : ℚ)
  let n : Int :=
    if r < 1/2 then f
    else if 1/2 < r then f + 1
    else if f % 2 = 0 then f else f + 1
  (n : ℚ) / 100

/-- Whether the character list `pat` matches the leading characters of
`s`. -/
def leadMatch : List Char → List Char → Bool
  | [], _ => true
  | _ :: _, [] => false
  | a :: as, b :: bs => a == b && leadMatch as bs

/-- Whether `pat` occurs as a contiguous run somewhere inside `s`. -/
def subMatch (pat : List Char) : List Char → Bool
  | [] => leadMatch pat []
  | c :: rest => leadMatch pat (c :: rest) || subMatch pat rest

/-- Python's `pat in s` substring test on strings. -/
def strContainsSub (s pat : String) : Bool :=
  subMatch pat.toList s.toList

/-- Stable insertion of `x` into `l`, keeping `x` before later elements
with an equal key. -/
def pyInsert {α : Type} (le : α → α → Bool) (x : α) : List α → List α
  | [] => [x]
  | y :: ys => if le x y then x :: y :: ys else y :: pyInsert le x ys

/-- A stable sort.  Python's `sorted` is also stable, and a stable sort's
output is determined uniquely by the key order plus stability, so this
computes exactly what `sorted(l, key=...)` computes (with `le` comparing
extracted keys). -/
def pySorted {α : Type} (le : α → α → Bool) : List α → List α
  | [] => []
  | x :: xs => pyInsert le x (pySorted le xs)

/-- JSON values as decoded by `resp.json()`, specialised to this
integration's payloads.  `num q` stands for any field content that
`decimal.Decimal(...)` parses exactly to `q` (a JSON number or a numeric
string); `dt t` stands for a string in ISO‑8601 format denoting the UTC
instant `t` (what `datetime.fromisoformat` parses); `str s` is any other
string. -/
inductive JValue where
  | null
  | num (q : ℚ)
  | str (s : String)
  | dt (t : DateTime)
  | arr (xs : List JValue)
  | obj (fields : List (String × JValue))

namespace JValue

/-- Python truthiness of a decoded JSON value (`if not self.coordinator.data`). -/
def falsy : JValue → Bool
  | .null => true
  | .num q => q == 0
  | .str s => s == ""
  | .dt _ => false
  | .arr xs => xs.isEmpty
  | .obj fs => fs.isEmpty

end JValue

/-- `v[k]` for a string key: a dict lookup raising `KeyError` when the
key is missing, `TypeError` when `v` is not a dict (indexing a list,
string, number or `None` with a string key raises `TypeError`). -/
def indexStr (v : JValue) (k : String) : Except PyExc JValue :=
  match v with
  | .obj fs =>
    match fs.lookup k with
    | some w => .ok w
    | none => .error .keyError
  | _ => .error .typeError

/-- `v[i]` for a nonnegative integer index: a list lookup raising
`IndexError` past the end, `KeyError` when `v` is a dict (an absent
integer dict key), `TypeError` otherwise. -/
def indexNat (v : JValue) (i : Nat) : Except PyExc JValue :=
  match v with
  | .arr xs =>
    match xs.get? i with
    | some w => .ok w
    | none => .error .indexError
  | .obj _ => .error .keyError
  | _ => .error .typeError

/-- `v.get(k)` on a dict: `None` when the key is missing,
`AttributeError` when `v` is not a dict. -/
def pyGet (v : JValue) (k : String) : Except PyExc JValue :=
  match v with
  | .obj fs =>
    match fs.lookup k with
    | some w => .ok w
    | none => .ok .null
  | _ => .error .attrError

/-- Iterating a JSON value (`for r in v`): a list yields its elements, a
dict yields its keys; iterating anything else is modelled as
`TypeError` (the source only ever meets lists here, and the non-list
cases all end in a caught `TypeError` either at the loop or at the first
subscript of the loop variable). -/
def asList (v : JValue) : Except PyExc (List JValue) :=
  match v with
  | .arr xs => .ok xs
  | .obj fs => .ok (fs.map fun p => .str p.1)
  | _ => .error .typeError

/-- `decimal.Decimal(v)`: exact for numbers and numeric strings
(`num q`), `InvalidOperation` for non-numeric strings (including
ISO-datetime strings), `TypeError` for `None`, lists and dicts. -/
def pyDecimal (v : JValue) : Except PyExc ℚ :=
  match v with
  | .num q => .ok q
  | .str _ => .error .invalidOperation
  | .dt _ => .error .invalidOperation
  | _ => .error .typeError

/-- `datetime.datetime.fromisoformat(v)`: the parsed instant for a
well-formed ISO string (`dt t`), `ValueError` for any other string,
`TypeError` for non-strings. -/
def fromIso (v : JValue) : Except PyExc DateTime :=
  match v with
  | .dt t => .ok t
  | .str _ => .error .valueError
  | _ => .error .typeError

/-! ## The stepped-tariff cost primitive

`_calculate_cost_for_kwh` appears twice in `sensor.py` (lines 236–265 in
`OctopusCurrentMonthCostSensor` and 375–404 in
`OctopusMonthlyEstimateSensor`), with identical bodies; both are embedded
by `calculateCostForKwh` below.  A parsed-field ("pure") version
`costForKwhP` over structured steps is used for the algebraic theorems
and is related to the JSON-level function by `calculateCostForKwh_mk`.
-/

/-- One consumption-charge step with its JSON fields already parsed:
`pricePerUnit`, `stepStart`, and `stepEnd` (`none` embeds JSON `null`,
the unbounded final step that the code maps to `Decimal('Infinity')`). -/
structure StepP where
  pricePerUnit : ℚ
  stepStart : ℚ
  stepEnd : Option ℚ
deriving DecidableEq, Repr

/-- A tariff (product) with parsed fields: display name, the single
standing charge (`standingCharges[0].pricePerUnit`, JPY/day), the fuel
cost adjustment (`fuelCostAdjustment.pricePerUnit`, JPY/kWh), and the
consumption steps. -/
structure TariffP where
  displayName : String
  standingCharge : ℚ
  fuelAdj : ℚ
  steps : List StepP
deriving DecidableEq, Repr

/-- `sorted(consumption_steps, key=lambda x: x["stepStart"])` on parsed
steps: Python sorts the key-decorated pairs stably. -/
def sortStepsP (l : List StepP) : List StepP :=
  (pySorted (fun a b => decide (a.1 ≤ b.1)) (l.map fun s => (s.stepStart, s))).map
    fun p => p.2

/-- `min(remaining_kwh, step_end - step_start)` where a `null` step end
becomes `Decimal('Infinity')` (so the minimum is `remaining_kwh`). -/
def stepTake (remaining : ℚ) (s : StepP) : ℚ :=
  match s.stepEnd with
  | none => remaining
  | some e => min remaining (e - s.stepStart)

/-- The step-walk loop of `_calculate_cost_for_kwh` on parsed, already
sorted steps: for each step take `min(remaining, width)` kWh; if that is
positive add it (times the step price) to the cost and subtract it from
`remaining`; break as soon as `remaining ≤ 0`. -/
def codeWalk (remaining : ℚ) : List StepP → ℚ
  | [] => 0
  | s :: rest =>
    let k := stepTake remaining s
    if 0 < k then
      (if remaining - k ≤ 0 then k * s.pricePerUnit
       else k * s.pricePerUnit + codeWalk (remaining - k) rest)
    else
      (if remaining ≤ 0 then 0 else codeWalk remaining rest)

/-- `_calculate_cost_for_kwh` with its JSON lookups already performed:
sort the steps by `stepStart`, run the step walk, and add
`total_kwh * fuel_adjustment_rate`.  The standing charge is not part of
this function. -/
def costForKwhP (totalKwh : ℚ) (t : TariffP) : ℚ :=
  codeWalk totalKwh (sortStepsP t.steps) + totalKwh * t.fuelAdj

/-- Modelled from the spec's words (§4.2 stepped-tariff cost primitive),
for comparison with the source-derived `codeWalk`: walk the sorted
steps, accumulating `min(remaining_kwh, step_end − step_start) ×
step_price` and decrementing `remaining_kwh` by the same amount,
stopping once `remaining_kwh ≤ 0`, with an unbounded final step treated
as `step_end = +infinity`. -/
def specWalk (remaining : ℚ) : List StepP → ℚ
  | [] => 0
  | s :: rest =>
    if remaining ≤ 0 then 0
    else
      let k := stepTake remaining s
      k * s.pricePerUnit + specWalk (remaining - k) rest

/-- Modelled from the spec's words: the full cost-for-kWh primitive,
`spec step walk + total_kwh × fuel_adjustment_rate`, excluding the
standing charge. -/
def specCostForKwh (totalKwh : ℚ) (t : TariffP) : ℚ :=
  specWalk totalKwh (sortStepsP t.steps) + totalKwh * t.fuelAdj

/-- The steps `l`, in order, tile `[b, ∞)`: each step starts where the
previous one ended, consecutive boundaries strictly increase, and the
final step is unbounded.  `ChainFrom 0 l` says `l` partitions `[0, ∞)`. -/
inductive ChainFrom : ℚ → List StepP → Prop where
  | last (b p : ℚ) : ChainFrom b [⟨p, b, none⟩]
  | cons (b e p : ℚ) (rest : List StepP) : b < e → ChainFrom e rest →
      ChainFrom b (⟨p, b, some e⟩ :: rest)

/-- The step-walk loop of `_calculate_cost_for_kwh` at the JSON level
(lines 247–260 of `sensor.py`): the loop parses each step's fields with
`decimal.Decimal` as it reaches it, so a malformed step that the walk
breaks before is never touched. -/
def stepWalkJ (cost remaining : ℚ) : List JValue → Except PyExc ℚ
  | [] => .ok cost
  | stepJ :: rest => do
    let price ← indexStr stepJ "pricePerUnit" >>= pyDecimal
    let sStart ← indexStr stepJ "stepStart" >>= pyDecimal
    let sEndJ ← indexStr stepJ "stepEnd"
    let k ←
      match sEndJ with
      | .null => pure remaining
      | v => do
          let e ← pyDecimal v
          pure (min remaining (e - sStart))
    let cost' := if 0 < k then cost + k * price else cost
    let remaining' := if 0 < k then remaining - k else remaining
    if remaining' ≤ 0 then pure cost' else stepWalkJ cost' remaining' rest

/-- Key extraction performed by
`sorted(consumption_steps, key=lambda x: x["stepStart"])`: Python
evaluates the key function on every element before comparing.  A
non-numeric key is modelled as `TypeError` (the error unorderable keys
raise when compared). -/
def extractStepKeys : List JValue → Except PyExc (List (ℚ × JValue))
  | [] => .ok []
  | s :: rest => do
    let kJ ← indexStr s "stepStart"
    match kJ with
    | .num q =>
      let tail ← extractStepKeys rest
      pure ((q, s) :: tail)
    | _ => .error .typeError

/-- `OctopusCurrentMonthCostSensor._calculate_cost_for_kwh`
(= `OctopusMonthlyEstimateSensor._calculate_cost_for_kwh`), lines
236–265 / 375–404 of `sensor.py`: read
`fuelCostAdjustment.pricePerUnit`, sort `consumptionCharges` by
`stepStart`, run the step walk, and return
`consumption_cost + total_kwh * fuel_adj`. -/
def calculateCostForKwh (totalKwh : ℚ) (productData : JValue) :
    Except PyExc ℚ := do
  let fuelAdj ← indexStr productData "fuelCostAdjustment" >>=
      (indexStr · "pricePerUnit") >>= pyDecimal
  let stepsJ ← indexStr productData "consumptionCharges" >>= asList
  let keyed ← extractStepKeys stepsJ
  let sorted := (pySorted (fun a b => decide (a.1 ≤ b.1)) keyed).map fun p => p.2
  let consumptionCost ← stepWalkJ 0 totalKwh sorted
  pure (consumptionCost + totalKwh * fuelAdj)

/-! ## Sensor value computations

Each sensor's `native_value` property is embedded as a function of the
coordinator snapshot (a `JValue`) and the current Tokyo-local calendar
date (`datetime.datetime.now(tz=tokyo).date()`).  The body inside `try`
is the "raw" computation in `Except PyExc`; the property wraps it with
the sensor's `except` clause. -/

/-- The lookup chain
`data["properties"][0]["electricitySupplyPoints"][0]["halfHourlyReadings"]`
shared by all consumption/cost sensors, followed by the loop's
iteration. -/
def getReadings (data : JValue) : Except PyExc (List JValue) := do
  let v ← indexStr data "properties" >>= (indexNat · 0) >>=
      (indexStr · "electricitySupplyPoints") >>= (indexNat · 0) >>=
      (indexStr · "halfHourlyReadings")
  asList v

/-- The lookup chain
`data["properties"][0]["electricitySupplyPoints"][0]["agreements"][0]["product"]`. -/
def getProduct (data : JValue) : Except PyExc JValue :=
  indexStr data "properties" >>= (indexNat · 0) >>=
    (indexStr · "electricitySupplyPoints") >>= (indexNat · 0) >>=
    (indexStr · "agreements") >>= (indexNat · 0) >>=
    (indexStr · "product")

/-- The summing loop of the daily consumption sensors: for each reading
parse `startAt`, convert to Tokyo time, and only when the local date
equals `d` parse `value` and add it to the accumulator.  A reading whose
local date does not match never has its `value` field touched, exactly
as in the source. -/
def sumLoopDate (d : Date) (acc : ℚ) : List JValue → Except PyExc ℚ
  | [] => .ok acc
  | r :: rest => do
    let startUtc ← indexStr r "startAt" >>= fromIso
    if tokyoDate startUtc = d then do
      let v ← indexStr r "value" >>= pyDecimal
      sumLoopDate d (acc + v) rest
    else
      sumLoopDate d acc rest

/-- The summing loop of the monthly consumption/cost sensors: a reading
counts when its Tokyo-local date has year `y` and month `m`. -/
def sumLoopMonth (y : Int) (m : Nat) (acc : ℚ) : List JValue → Except PyExc ℚ
  | [] => .ok acc
  | r :: rest => do
    let startUtc ← indexStr r "startAt" >>= fromIso
    let rd := tokyoDate startUtc
    if rd.year = y ∧ rd.month = m then do
      let v ← indexStr r "value" >>= pyDecimal
      sumLoopMonth y m (acc + v) rest
    else
      sumLoopMonth y m acc rest

/-- The `except` clause of the consumption sensors:
`(KeyError, IndexError, TypeError)` becomes `None`; every other
exception (notably `ValueError` from `fromisoformat` and
`decimal.InvalidOperation`) escapes the property. -/
def catchShape (r : Except PyExc ℚ) : Except PyExc (Option ℚ) :=
  match r with
  | .ok v => .ok (some v)
  | .error .keyError => .ok none
  | .error .indexError => .ok none
  | .error .typeError => .ok none
  | .error e => .error e

/-- The `except` clause of the two cost sensors:
`(KeyError, IndexError, TypeError, decimal.InvalidOperation)` becomes
`None`; `ValueError` still escapes. -/
def catchShapeDec (r : Except PyExc ℚ) : Except PyExc (Option ℚ) :=
  match r with
  | .ok v => .ok (some v)
  | .error .keyError => .ok none
  | .error .indexError => .ok none
  | .error .typeError => .ok none
  | .error .invalidOperation => .ok none
  | .error e => .error e

/-- Body of `OctopusTodayConsumptionSensor.native_value` (lines 90–113):
sum the readings whose Tokyo-local date is today. -/
def todayConsumptionRaw (data : JValue) (today : Date) : Except PyExc ℚ := do
  let readings ← getReadings data
  sumLoopDate today 0 readings

/-- `OctopusTodayConsumptionSensor.native_value`. -/
def todayConsumptionValue (data : JValue) (today : Date) :
    Except PyExc (Option ℚ) :=
  if data.falsy then .ok none else catchShape (todayConsumptionRaw data today)

/-- Body of `OctopusYesterdayConsumptionSensor.native_value`
(lines 142–165): sum the readings whose Tokyo-local date is
`today - timedelta(days=1)`. -/
def yesterdayConsumptionRaw (data : JValue) (today : Date) : Except PyExc ℚ := do
  let readings ← getReadings data
  sumLoopDate (prevDate today) 0 readings

/-- `OctopusYesterdayConsumptionSensor.native_value`. -/
def yesterdayConsumptionValue (data : JValue) (today : Date) :
    Except PyExc (Option ℚ) :=
  if data.falsy then .ok none
  else catchShape (yesterdayConsumptionRaw data today)

/-- Body of `OctopusCurrentMonthConsumptionSensor.native_value`
(lines 181–206): sum the readings of the current Tokyo calendar month. -/
def currentMonthConsumptionRaw (data : JValue) (today : Date) :
    Except PyExc ℚ := do
  let readings ← getReadings data
  sumLoopMonth today.year today.month 0 readings

/-- `OctopusCurrentMonthConsumptionSensor.native_value`. -/
def currentMonthConsumptionValue (data : JValue) (today : Date) :
    Except PyExc (Option ℚ) :=
  if data.falsy then .ok none
  else catchShape (currentMonthConsumptionRaw data today)

/-- Body of `OctopusLastMonthConsumptionSensor.native_value`
(lines 332–361): sum the readings of the previous Tokyo calendar month. -/
def lastMonthConsumptionRaw (data : JValue) (today : Date) :
    Except PyExc ℚ := do
  let readings ← getReadings data
  let target := prevMonthOf today
  sumLoopMonth target.1 target.2 0 readings

/-- `OctopusLastMonthConsumptionSensor.native_value`. -/
def lastMonthConsumptionValue (data : JValue) (today : Date) :
    Except PyExc (Option ℚ) :=
  if data.falsy then .ok none
  else catchShape (lastMonthConsumptionRaw data today)

/-- The standing-charge lookup
`product_data["standingCharges"][0]["pricePerUnit"]` as a `Decimal`. -/
def getStandingCharge (productData : JValue) : Except PyExc ℚ :=
  indexStr productData "standingCharges" >>= (indexNat · 0) >>=
    (indexStr · "pricePerUnit") >>= pyDecimal

/-- Body of `OctopusCurrentMonthCostSensor.native_value` (lines 267–315):
current-month consumption, its stepped cost plus fuel adjustment, plus
`standing_charge × today.day`, rounded to 2 decimal places at the
return. -/
def currentMonthCostRaw (data : JValue) (today : Date) : Except PyExc ℚ := do
  let readings ← getReadings data
  let productData ← getProduct data
  let totalKwh ← sumLoopMonth today.year today.month 0 readings
  let usageCost ← calculateCostForKwh totalKwh productData
  let standingChargePerDay ← getStandingCharge productData
  let standingCost := standingChargePerDay * (today.day : ℚ)
  pure (roundHalfEven2 (usageCost + standingCost))

/-- `OctopusCurrentMonthCostSensor.native_value`. -/
def currentMonthCostValue (data : JValue) (today : Date) :
    Except PyExc (Option ℚ) :=
  if data.falsy then .ok none
  else catchShapeDec (currentMonthCostRaw data today)

/-- Body of `OctopusMonthlyEstimateSensor.native_value` (lines 406–469):
daily average of the current month's consumption, projected over the
whole month, costed, plus `standing_charge × days_in_month`, rounded to
2 decimal places at the return.  `calendar.monthrange` raises for a
month outside `1..12` (modelled as `valueError`); the source's
`days_so_far == 0` guard returns `Decimal(0)` unrounded. -/
def monthlyEstimateRaw (data : JValue) (today : Date) : Except PyExc ℚ := do
  let readings ← getReadings data
  let productData ← getProduct data
  let totalKwhSoFar ← sumLoopMonth today.year today.month 0 readings
  let daysSoFar := today.day
  if daysSoFar = 0 then pure 0
  else do
    let dailyAvgKwh := totalKwhSoFar / (daysSoFar : ℚ)
    let daysInMonthN ←
      if 1 ≤ today.month ∧ today.month ≤ 12 then pure (daysInMonth today.year today.month)
      else .error .valueError
    let estimatedMonthKwh := dailyAvgKwh * (daysInMonthN : ℚ)
    let estimatedUsageCost ← calculateCostForKwh estimatedMonthKwh productData
    let standingChargePerDay ← getStandingCharge productData
    let standingCost := standingChargePerDay * (daysInMonthN : ℚ)
    pure (roundHalfEven2 (estimatedUsageCost + standingCost))

/-- `OctopusMonthlyEstimateSensor.native_value`. -/
def monthlyEstimateValue (data : JValue) (today : Date) :
    Except PyExc (Option ℚ) :=
  if data.falsy then .ok none
  else catchShapeDec (monthlyEstimateRaw data today)

/-- `OctopusBalanceSensor.native_value` (lines 482–486):
`self.coordinator.data.get("balance")` behind the falsiness guard. -/
def balanceValue (data : JValue) : Except PyExc (Option JValue) :=
  if data.falsy then .ok none
  else
    match pyGet data "balance" with
    | .ok .null => .ok none
    | .ok v => .ok (some v)
    | .error e => .error e

/-- `OctopusOverdueBalanceSensor.native_value` (lines 499–503). -/
def overdueBalanceValue (data : JValue) : Except PyExc (Option JValue) :=
  if data.falsy then .ok none
  else
    match pyGet data "overdueBalance" with
    | .ok .null => .ok none
    | .ok v => .ok (some v)
    | .error e => .error e

/-- Python `x == "s"` where `x` may be any decoded JSON value: only a
matching string compares equal. -/
def jeqStr (v : JValue) (s : String) : Bool :=
  match v with
  | .str s' => s' == s
  | _ => false

/-- Body of `OctopusLastBillSensor.native_value` (lines 516–538):
fetch `data["bills"]["edges"][0]["node"]`, then dispatch on
`__typename`: `PeriodBasedDocumentType` and `StatementType` return
`totalCharges.grossTotal`, `InvoiceType` returns `.get("grossAmount")`
(`None` when absent), anything else falls through to `None`. -/
def lastBillRaw (data : JValue) : Except PyExc (Option JValue) := do
  let bill ← indexStr data "bills" >>= (indexStr · "edges") >>=
      (indexNat · 0) >>= (indexStr · "node")
  let billType ← pyGet bill "__typename"
  if jeqStr billType "PeriodBasedDocumentType" then do
    let v ← indexStr bill "totalCharges" >>= (indexStr · "grossTotal")
    pure (some v)
  else if jeqStr billType "InvoiceType" then do
    let v ← pyGet bill "grossAmount"
    pure (match v with | .null => none | w => some w)
  else if jeqStr billType "StatementType" then do
    let v ← indexStr bill "totalCharges" >>= (indexStr · "grossTotal")
    pure (some v)
  else
    pure none

/-- `OctopusLastBillSensor.native_value`, with its
`(KeyError, IndexError, TypeError)` clause. -/
def lastBillValue (data : JValue) : Except PyExc (Option JValue) :=
  if data.falsy then .ok none
  else
    match lastBillRaw data with
    | .ok v => .ok v
    | .error .keyError => .ok none
    | .error .indexError => .ok none
    | .error .typeError => .ok none
    | .error e => .error e

/-- Body of `OctopusProductSensor.native_value` (lines 574–582): the
tariff display name. -/
def productRaw (data : JValue) : Except PyExc JValue := do
  let p ← getProduct data
  indexStr p "displayName"

/-- `OctopusProductSensor.native_value`: on a shape failure this sensor
returns the sentinel string `"Unknown"` rather than no value. -/
def productValue (data : JValue) : Except PyExc (Option JValue) :=
  if data.falsy then .ok none
  else
    match productRaw data with
    | .ok v => .ok (some v)
    | .error .keyError => .ok (some (.str "Unknown"))
    | .error .indexError => .ok (some (.str "Unknown"))
    | .error .typeError => .ok (some (.str "Unknown"))
    | .error e => .error e

/-- The batch of presented values produced from one snapshot: each
component is computed lazily and independently by the host from the same
snapshot, so the batch is exactly the tuple of the per-sensor
functions. -/
structure PresentedValues where
  today : Except PyExc (Option ℚ)
  yesterday : Except PyExc (Option ℚ)
  currentMonth : Except PyExc (Option ℚ)
  lastMonth : Except PyExc (Option ℚ)
  currentCost : Except PyExc (Option ℚ)
  estimate : Except PyExc (Option ℚ)
  balance : Except PyExc (Option JValue)
  overdue : Except PyExc (Option JValue)
  lastBill : Except PyExc (Option JValue)
  product : Except PyExc (Option JValue)

/-- Compute every presented value from one snapshot and clock. -/
def computeAll (data : JValue) (today : Date) : PresentedValues where
  today := todayConsumptionValue data today
  yesterday := yesterdayConsumptionValue data today
  currentMonth := currentMonthConsumptionValue data today
  lastMonth := lastMonthConsumptionValue data today
  currentCost := currentMonthCostValue data today
  estimate := monthlyEstimateValue data today
  balance := balanceValue data
  overdue := overdueBalanceValue data
  lastBill := lastBillValue data
  product := productValue data

/-! ## Well-formed snapshot builders

Structured readings/tariffs and their JSON images, used to state the
sensor theorems over arbitrary well-formed payloads. -/

/-- One half-hourly reading with parsed fields: its UTC start instant
and its kWh value. -/
structure ReadingP where
  startAt : DateTime
  value : ℚ
deriving DecidableEq, Repr

/-- The JSON image of a reading as the comprehensive query returns it. -/
def mkReadingJ (r : ReadingP) : JValue :=
  .obj [("startAt", .dt r.startAt), ("endAt", .dt r.startAt),
        ("value", .num r.value)]

/-- The JSON image of one consumption step. -/
def mkStepJ (s : StepP) : JValue :=
  .obj [("pricePerUnit", .num s.pricePerUnit),
        ("stepStart", .num s.stepStart),
        ("stepEnd", match s.stepEnd with | some e => .num e | none => .null)]

/-- The JSON image of a product (tariff). -/
def mkProductJ (t : TariffP) : JValue :=
  .obj [("displayName", .str t.displayName),
        ("standingCharges", .arr [.obj [("pricePerUnit", .num t.standingCharge)]]),
        ("fuelCostAdjustment", .obj [("pricePerUnit", .num t.fuelAdj)]),
        ("consumptionCharges", .arr (t.steps.map mkStepJ))]

/-- A bills subtree holding a single most-recent bill node. -/
def mkBills (node : JValue) : JValue :=
  .obj [("edges", .arr [.obj [("node", node)]])]

/-- A bills subtree with an empty edge list (no bills). -/
def emptyBills : JValue :=
  .obj [("edges", .arr [])]

/-- A well-formed account snapshot (the `account` subtree the
coordinator stores) with the given readings, tariff and bills. -/
def mkSnapshot (rs : List ReadingP) (t : TariffP) (billsJ : JValue) : JValue :=
  .obj [("number", .str "A-0001"),
        ("balance", .num 0),
        ("overdueBalance", .num 0),
        ("bills", billsJ),
        ("properties", .arr [.obj [("electricitySupplyPoints", .arr [.obj [
            ("agreements", .arr [.obj [("product", mkProductJ t)]]),
            ("halfHourlyReadings", .arr (rs.map mkReadingJ))]])]])]

/-! ## The API client (`api.py`)

Token lifecycle (`async_get_token`, `_ensure_valid_token`) and the
retry-once loop of `async_get_data`.  Wall-clock time is measured in
minutes; network responses are supplied as an oracle stream, one entry
per POST the client performs. -/

/-- The client's mutable token state: `self._token` and
`self._token_expiry`. -/
structure ClientState where
  token : Option String
  tokenExpiry : Option Int
deriving DecidableEq, Repr

/-- `async_get_token` (lines 147–174 of `api.py`), given the time `now`
at which the response is processed and the token string the provider
returned: store the token and set the expiry to `now + 50` minutes. -/
def asyncGetToken (now : Int) (newToken : String) : ClientState :=
  ⟨some newToken, some (now + 50)⟩

/-- `_ensure_valid_token` (lines 176–183 of `api.py`): request a new
token when none is stored or when `now >= expiry`; otherwise leave the
state alone.  The boolean reports whether `async_get_token` was
called. -/
def ensureValidToken (now : Int) (newToken : String) (s : ClientState) :
    ClientState × Bool :=
  match s.token, s.tokenExpiry with
  | none, _ => (asyncGetToken now newToken, true)
  | some _, none => (asyncGetToken now newToken, true)
  | some _, some e => if e ≤ now then (asyncGetToken now newToken, true) else (s, false)

/-- One entry of the GraphQL `errors` array (`message` and
`extensions.errorCode`, empty strings when the keys are absent, matching
the source's `.get(..., "")` defaults). -/
structure GqlError where
  message : String
  errorCode : String
deriving DecidableEq, Repr

/-- The JWT-expiry test applied to one error entry in `async_get_data`
(line 248): a `"JWT has expired"` or `"Signature of the JWT has
expired"` message substring, or error code exactly `"KT-CT-1124"`. -/
def isJwtExpiry (e : GqlError) : Bool :=
  strContainsSub e.message "JWT has expired" ||
    strContainsSub e.message "Signature of the JWT has expired" ||
    e.errorCode == "KT-CT-1124"

/-- `has_jwt_error` for a GraphQL `errors` array. -/
def hasJwtError (errs : List GqlError) : Bool :=
  errs.any isJwtExpiry

/-- One HTTP response to the comprehensive query: status code, the
`errors` array when the body has an `errors` key, and the decoded JSON
body. -/
structure Resp where
  status : Nat
  errors : Option (List GqlError)
  body : JValue

/-- How `async_get_data` fails: a non-expiry GraphQL error list
(attempt 1 or 2), an expiry-coded error list still present after the
retry, an HTTP error status (`resp.raise_for_status()`), or a shape
error from the final `data["data"]["account"]` lookup. -/
inductive FetchError where
  | gqlErrors (errs : List GqlError)
  | gqlErrorsAfterRetry (errs : List GqlError)
  | httpStatus (n : Nat)
  | shape (e : PyExc)
deriving Repr

/-- What one iteration of the `for attempt in range(2)` loop decides. -/
inductive AttemptRes where
  | success (body : JValue)
  | failure (e : FetchError)
  | retryAuth

/-- One iteration of the retry loop of `async_get_data` (lines 237–275
of `api.py`).  `first` is `attempt == 0`.  The `errors` key is examined
before the status code, exactly as in the source: an expiry signal on
the first attempt triggers the retry path, an expiry signal on the
second raises, any other GraphQL error raises immediately; with no
`errors` key, a 401 on the first attempt triggers the retry path and any
other `>= 400` status raises. -/
def attemptOutcome (first : Bool) (r : Resp) : AttemptRes :=
  match r.errors with
  | some errs =>
    if hasJwtError errs then
      if first then .retryAuth else .failure (.gqlErrorsAfterRetry errs)
    else .failure (.gqlErrors errs)
  | none =>
    if first && r.status == 401 then .retryAuth
    else if 400 ≤ r.status then .failure (.httpStatus r.status)
    else .success r.body

/-- The final `data["data"]["account"]` projection. -/
def extractAccount (body : JValue) : Except FetchError JValue :=
  match indexStr body "data" >>= (indexStr · "account") with
  | .ok v => .ok v
  | .error e => .error (.shape e)

/-- The observable outcome of one `async_get_data` call: its result, the
number of POSTs of the comprehensive query it performed, and the number
of mid-call re-authentications (`async_get_token` calls made from inside
the retry loop). -/
structure GDataOut where
  result : Except FetchError JValue
  posts : Nat
  reauths : Nat

/-- `async_get_data` (lines 218–278 of `api.py`), with the
`for attempt in range(2)` loop unrolled: each POST consumes the next
entry of the response stream `resp`.  The second iteration can never ask
to retry again (`attemptOutcome false` never returns `.retryAuth`), so
the fall-through arm — which in the source would reach the final return
with the second response — is stated with the second response's body. -/
def asyncGetData (resp : Nat → Resp) : GDataOut :=
  match attemptOutcome true (resp 0) with
  | .success body => ⟨extractAccount body, 1, 0⟩
  | .failure e => ⟨.error e, 1, 0⟩
  | .retryAuth =>
    match attemptOutcome false (resp 1) with
    | .success body => ⟨extractAccount body, 2, 1⟩
    | .failure e => ⟨.error e, 2, 1⟩
    | .retryAuth => ⟨extractAccount (resp 1).body, 2, 1⟩

/-- The largest step price in a list (at least `0`), used as a Lipschitz
bound for the step walk. -/
def maxStepPrice (l : List StepP) : ℚ :=
  l.foldr (fun s m => max s.pricePerUnit m) 0

/-- A step's `[stepStart, stepEnd)` range is nonempty (an unbounded step
vacuously so).  Every step of a partition of `[0, ∞)` has this. -/
def StepP.posWidth (s : StepP) : Prop :=
  ∀ e, s.stepEnd = some e → s.stepStart < e

/-- The three-step example tariff from the specification:
steps `[(0,120,20), (120,300,25), (300,unbounded,30)]`. -/
def exampleSteps : List StepP :=
  [⟨20, 0, some 120⟩, ⟨25, 120, some 300⟩, ⟨30, 300, none⟩]

/-- The example tariff with the spec's steps, no fuel adjustment and no
standing charge, so its cost is the bare step component. -/
def exampleStepTariff : TariffP :=
  ⟨"example", 0, 0, exampleSteps⟩

/-- A snapshot whose single reading has a malformed (non-ISO) `startAt`
string, with everything else well-formed. -/
def badStartSnapshot : JValue :=
  .obj [("bills", emptyBills),
        ("properties", .arr [.obj [("electricitySupplyPoints", .arr [.obj [
            ("agreements", .arr [.obj [("product", mkProductJ exampleStepTariff)]]),
            ("halfHourlyReadings", .arr [.obj [("startAt", .str "not-a-timestamp"),
                                               ("value", .num 1)]])]])]])]

/-- A snapshot whose supply point lacks the `halfHourlyReadings` key but
still carries a product. -/
def missingReadingsSnapshot : JValue :=
  .obj [("bills", emptyBills),
        ("properties", .arr [.obj [("electricitySupplyPoints", .arr [.obj [
            ("agreements", .arr [.obj [("product", mkProductJ exampleStepTariff)]])]])]])]

/-- A flat single-step tariff with a (realistic) negative fuel-cost
adjustment of −100 JPY/kWh. -/
def negFuelTariff : TariffP :=
  ⟨"flat", 0, -100, [⟨20, 0, none⟩]⟩

/-- A PyExc is one of the classes caught by the consumption sensors'
`except (KeyError, IndexError, TypeError)` clause. -/
def ShapeErr (e : PyExc) : Prop :=
  e = .keyError ∨ e = .indexError ∨ e = .typeError

/-! # Theorems -/

/-! ## Step-walk basics -/

theorem codeWalk_nonpos (l : List StepP) (r : ℚ) (hr : r ≤ 0) :
    codeWalk r l = 0 := by
  cases l with
  | nil => rfl
  | cons s rest =>
    have hk : stepTake r s ≤ r := by
      unfold stepTake
      cases s.stepEnd with
      | none => exact le_refl r
      | some e => exact min_le_left _ _
    simp only [codeWalk]
    rw [if_neg (by push_neg; exact le_trans hk hr), if_pos hr]

theorem specWalk_nonpos (l : List StepP) (r : ℚ) (hr : r ≤ 0) :
    specWalk r l = 0 := by
  cases l with
  | nil => rfl
  | cons s rest => simp only [specWalk, if_pos hr]

theorem chainFrom_posWidth {b : ℚ} {l : List StepP} (h : ChainFrom b l) :
    ∀ s ∈ l, s.posWidth := by
  induction h with
  | last b p =>
    intro s hs
    simp only [List.mem_singleton] at hs
    subst hs
    intro e he
    simp at he
  | cons b e p rest hbe hch ih =>
    intro s hs
    rcases List.mem_cons.mp hs with h1 | h2
    · subst h1
      intro e' he'
      simp only [Option.some.injEq] at he'
      subst he'
      exact hbe
    · exact ih s h2

theorem codeWalk_eq_specWalk (l : List StepP) (hw : ∀ s ∈ l, s.posWidth)
    (r : ℚ) : codeWalk r l = specWalk r l := by
  induction l generalizing r with
  | nil => rfl
  | cons s rest ih =>
    have hws : s.posWidth := hw s (List.mem_cons_self s rest)
    have hwr : ∀ x ∈ rest, x.posWidth := fun x hx => hw x (List.mem_cons_of_mem s hx)
    by_cases hr : r ≤ 0
    · rw [codeWalk_nonpos _ _ hr, specWalk_nonpos _ _ hr]
    · push_neg at hr
      have hk : 0 < stepTake r s := by
        unfold stepTake
        cases he : s.stepEnd with
        | none => exact hr
        | some e => exact lt_min hr (by have := hws e he; linarith)
      simp only [codeWalk, specWalk, if_neg (not_le.mpr hr), if_pos hk]
      by_cases hrem : r - stepTake r s ≤ 0
      · rw [if_pos hrem, specWalk_nonpos rest _ hrem]
        ring
      · rw [if_neg hrem, ih hwr]

/-! ## Bridging the JSON-level cost function to its parsed-field form -/

theorem pyInsert_map {α β : Type} (f : α → β) (le : α → α → Bool)
    (le' : β → β → Bool) (hc : ∀ a b, le' (f a) (f b) = le a b) (x : α) :
    ∀ l : List α, pyInsert le' (f x) (l.map f) = (pyInsert le x l).map f := by
  intro l
  induction l with
  | nil => rfl
  | cons y ys ih =>
    simp only [List.map_cons, pyInsert, hc]
    by_cases h : le x y
    · rw [if_pos h, if_pos h, List.map_cons, List.map_cons]
    · rw [if_neg h, if_neg h, List.map_cons, ih]

theorem pySorted_map {α β : Type} (f : α → β) (le : α → α → Bool)
    (le' : β → β → Bool) (hc : ∀ a b, le' (f a) (f b) = le a b) :
    ∀ l : List α, pySorted le' (l.map f) = (pySorted le l).map f := by
  intro l
  induction l with
  | nil => rfl
  | cons x xs ih =>
    simp only [List.map_cons, pySorted, ih]
    exact pyInsert_map f le le' hc x (pySorted le xs)

theorem extractStepKeys_mk (l : List StepP) :
    extractStepKeys (l.map mkStepJ) =
      .ok (l.map fun s => (s.stepStart, mkStepJ s)) := by
  induction l with
  | nil => rfl
  | cons s rest ih =>
    simp only [List.map_cons, extractStepKeys, mkStepJ, indexStr, List.lookup]
    norm_num
    rw [ih]
    rfl

theorem stepWalkJ_mk (l : List StepP) :
    ∀ cost remaining : ℚ, stepWalkJ cost remaining (l.map mkStepJ) =
      .ok (cost + codeWalk remaining l) := by
  induction l with
  | nil => intro cost remaining; simp [stepWalkJ, codeWalk]
  | cons s rest ih =>
    intro cost remaining
    have hparse : stepWalkJ cost remaining ((s :: rest).map mkStepJ) =
        (let k := stepTake remaining s
         let cost' := if 0 < k then cost + k * s.pricePerUnit else cost
         let remaining' := if 0 < k then remaining - k else remaining
         if remaining' ≤ 0 then .ok cost'
         else stepWalkJ cost' remaining' (rest.map mkStepJ)) := by
      simp only [List.map_cons, stepWalkJ, mkStepJ, indexStr, List.lookup, bind,
        Except.bind, pyDecimal, stepTake]
      cases he : s.stepEnd with
      | none => rfl
      | some e => rfl
    rw [hparse]
    simp only [codeWalk]
    by_cases hk : 0 < stepTake remaining s
    · simp only [if_pos hk]
      by_cases hrem : remaining - stepTake remaining s ≤ 0
      · rw [if_pos hrem, if_pos hrem]
      · rw [if_neg hrem, if_neg hrem, ih]
        rw [add_assoc]
    · simp only [if_neg hk]
      by_cases hrem : remaining ≤ 0
      · rw [if_pos hrem, if_pos hrem, add_zero]
      · rw [if_neg hrem, if_neg hrem, ih]

theorem calculateCostForKwh_mk (t : TariffP) (totalKwh : ℚ) :
    calculateCostForKwh totalKwh (mkProductJ t) = .ok (costForKwhP totalKwh t) := by
  have h0 : calculateCostForKwh totalKwh (mkProductJ t) =
      (extractStepKeys (t.steps.map mkStepJ) >>= fun keyed =>
        stepWalkJ 0 totalKwh ((pySorted (fun a b => decide (a.1 ≤ b.1)) keyed).map
          fun p => p.2) >>= fun c => pure (c + totalKwh * t.fuelAdj)) := rfl
  rw [h0, extractStepKeys_mk]
  have h2 : (t.steps.map fun s => (s.stepStart, mkStepJ s)) =
      (t.steps.map fun s => ((s.stepStart, s) : ℚ × StepP)).map
        fun p => (p.1, mkStepJ p.2) := by
    rw [List.map_map]
    rfl
  have hbind : ∀ (x : List (ℚ × JValue)) (f : List (ℚ × JValue) → Except PyExc ℚ),
      ((Except.ok x : Except PyExc (List (ℚ × JValue))) >>= f) = f x := fun _ _ => rfl
  rw [hbind, h2, pySorted_map _ _ _ (fun a b => rfl), List.map_map]
  have h4 : ((pySorted (fun a b => decide (a.1 ≤ b.1))
        (t.steps.map fun s => ((s.stepStart, s) : ℚ × StepP))).map
        ((fun p : ℚ × JValue => p.2) ∘ fun p : ℚ × StepP => (p.1, mkStepJ p.2))) =
      (sortStepsP t.steps).map mkStepJ := by
    simp only [sortStepsP, List.map_map]
    rfl
  rw [h4, stepWalkJ_mk]
  simp only [bind, Except.bind, pure, Except.pure, costForKwhP, zero_add]

/-! ## Claim C1 -/

/-- C1: for every tariff whose (sorted) consumption steps partition
`[0, ∞)` and every non-negative `total_kwh`, the source's
`_calculate_cost_for_kwh` — embedded at the JSON level by
`calculateCostForKwh` — returns exactly the spec's walk
(`specCostForKwh`): sort ascending by `stepStart`, accumulate
`min(remaining, step_end − step_start) × step_price` stopping once
`remaining ≤ 0` (unbounded final step = `+∞`), plus
`total_kwh × fuel_adjustment_rate`, with the standing charge excluded.
In particular for steps `[(0,120,¥20),(120,300,¥25),(300,∞,¥30)]` and
`total_kwh = 150` the step component is `3150`. -/
theorem claim_C1_cost_for_kwh_matches_spec :
    (∀ (t : TariffP) (total : ℚ), 0 ≤ total →
        ChainFrom 0 (sortStepsP t.steps) →
        calculateCostForKwh total (mkProductJ t) = .ok (specCostForKwh total t))
    ∧ costForKwhP 150 exampleStepTariff = 3150
    ∧ specCostForKwh 150 exampleStepTariff = 3150 := by
  refine ⟨fun t total h0 hch => ?_,
    by norm_num [costForKwhP, sortStepsP, exampleStepTariff, exampleSteps,
      pySorted, pyInsert, codeWalk, stepTake, min_def],
    by norm_num [specCostForKwh, sortStepsP, exampleStepTariff, exampleSteps,
      pySorted, pyInsert, specWalk, stepTake, min_def]⟩
  rw [calculateCostForKwh_mk]
  simp only [costForKwhP, specCostForKwh,
    codeWalk_eq_specWalk _ (chainFrom_posWidth hch)]

/-- Witness for C1: the universally quantified part applied to the
example tariff and `total_kwh = 150`, with both hypotheses discharged. -/
theorem claim_C1_cost_for_kwh_matches_spec_witness :
    calculateCostForKwh 150 (mkProductJ exampleStepTariff) =
      .ok (specCostForKwh 150 exampleStepTariff) := by
  apply claim_C1_cost_for_kwh_matches_spec.1 exampleStepTariff 150 (by norm_num)
  rw [show sortStepsP exampleStepTariff.steps = exampleSteps from by decide]
  exact ChainFrom.cons 0 120 20 _ (by norm_num)
    (ChainFrom.cons 120 300 25 _ (by norm_num) (ChainFrom.last 300 30))

/-! ## Snapshot-level evaluation lemmas -/

theorem falsy_mkSnapshot (rs : List ReadingP) (t : TariffP) (b : JValue) :
    (mkSnapshot rs t b).falsy = false := rfl

theorem getReadings_mkSnapshot (rs : List ReadingP) (t : TariffP) (b : JValue) :
    getReadings (mkSnapshot rs t b) = .ok (rs.map mkReadingJ) := rfl

theorem getProduct_mkSnapshot (rs : List ReadingP) (t : TariffP) (b : JValue) :
    getProduct (mkSnapshot rs t b) = .ok (mkProductJ t) := rfl

theorem getStandingCharge_mkProductJ (t : TariffP) :
    getStandingCharge (mkProductJ t) = .ok t.standingCharge := rfl

theorem sumLoopDate_mkReadingJ (d : Date) (rs : List ReadingP) :
    ∀ acc : ℚ, sumLoopDate d acc (rs.map mkReadingJ) =
      .ok (acc + ((rs.filter fun r => decide (tokyoDate r.startAt = d)).map
        (fun r => r.value)).sum) := by
  induction rs with
  | nil => intro acc; simp [sumLoopDate]
  | cons r rest ih =>
    intro acc
    have hstep : sumLoopDate d acc ((r :: rest).map mkReadingJ) =
        (if tokyoDate r.startAt = d then sumLoopDate d (acc + r.value) (rest.map mkReadingJ)
         else sumLoopDate d acc (rest.map mkReadingJ)) := rfl
    rw [hstep]
    by_cases h : tokyoDate r.startAt = d
    · rw [if_pos h, ih]
      simp [List.filter_cons, h, add_assoc]
    · rw [if_neg h, ih]
      simp [List.filter_cons, h]

theorem sumLoopMonth_mkReadingJ (y : Int) (m : Nat) (rs : List ReadingP) :
    ∀ acc : ℚ, sumLoopMonth y m acc (rs.map mkReadingJ) =
      .ok (acc + ((rs.filter fun r =>
          decide ((tokyoDate r.startAt).year = y ∧ (tokyoDate r.startAt).month = m)).map
        (fun r => r.value)).sum) := by
  induction rs with
  | nil => intro acc; simp [sumLoopMonth]
  | cons r rest ih =>
    intro acc
    have hstep : sumLoopMonth y m acc ((r :: rest).map mkReadingJ) =
        (if (tokyoDate r.startAt).year = y ∧ (tokyoDate r.startAt).month = m then
           sumLoopMonth y m (acc + r.value) (rest.map mkReadingJ)
         else sumLoopMonth y m acc (rest.map mkReadingJ)) := rfl
    rw [hstep]
    by_cases h : (tokyoDate r.startAt).year = y ∧ (tokyoDate r.startAt).month = m
    · rw [if_pos h, ih]
      simp [List.filter_cons, h, add_assoc]
    · rw [if_neg h, ih]
      simp [List.filter_cons, h]

/-- Bind of a success value in `Except PyExc` just applies the
continuation. -/
theorem exBindOk {α β : Type} (x : α) (f : α → Except PyExc β) :
    ((Except.ok x : Except PyExc α) >>= f) = f x := rfl

/-- Bind of a `pure` value in `Except PyExc` just applies the
continuation. -/
theorem exBindPure {α β : Type} (x : α) (f : α → Except PyExc β) :
    ((pure x : Except PyExc α) >>= f) = f x := rfl

/-! ## Claim C3 -/

/-- C3: each period-consumption value on a well-formed snapshot is the
exact-decimal sum of the `value` fields of exactly those readings whose
UTC `startAt`, converted to Tokyo local time, has its local calendar
date inside the period (today, yesterday, the current calendar month,
the previous calendar month).  The final two conjuncts check a UTC
day-boundary reading: a UTC instant on day 10 at 15:30 buckets into
Tokyo-local day 11, so membership follows the converted local date, not
the UTC date. -/
theorem claim_C3_period_sums_by_tokyo_date :
    (∀ (rs : List ReadingP) (t : TariffP) (b : JValue) (d : Date),
      todayConsumptionValue (mkSnapshot rs t b) d =
        .ok (some (((rs.filter fun r => decide (tokyoDate r.startAt = d)).map
          fun r => r.value).sum))
      ∧ yesterdayConsumptionValue (mkSnapshot rs t b) d =
        .ok (some (((rs.filter fun r => decide (tokyoDate r.startAt = prevDate d)).map
          fun r => r.value).sum))
      ∧ currentMonthConsumptionValue (mkSnapshot rs t b) d =
        .ok (some (((rs.filter fun r => decide ((tokyoDate r.startAt).year = d.year ∧
            (tokyoDate r.startAt).month = d.month)).map fun r => r.value).sum))
      ∧ lastMonthConsumptionValue (mkSnapshot rs t b) d =
        .ok (some (((rs.filter fun r => decide ((tokyoDate r.startAt).year = (prevMonthOf d).1 ∧
            (tokyoDate r.startAt).month = (prevMonthOf d).2)).map fun r => r.value).sum)))
    ∧ tokyoDate ⟨2024, 5, 10, 15, 30⟩ = ⟨2024, 5, 11⟩
    ∧ (⟨2024, 5, 10, 15, 30⟩ : DateTime).day = 10 := by
  refine ⟨fun rs t b d => ⟨?_, ?_, ?_, ?_⟩, by decide, by decide⟩
  · have h0 : todayConsumptionValue (mkSnapshot rs t b) d =
        catchShape (sumLoopDate d 0 (rs.map mkReadingJ)) := rfl
    rw [h0, sumLoopDate_mkReadingJ, zero_add]
    rfl
  · have h0 : yesterdayConsumptionValue (mkSnapshot rs t b) d =
        catchShape (sumLoopDate (prevDate d) 0 (rs.map mkReadingJ)) := rfl
    rw [h0, sumLoopDate_mkReadingJ, zero_add]
    rfl
  · have h0 : currentMonthConsumptionValue (mkSnapshot rs t b) d =
        catchShape (sumLoopMonth d.year d.month 0 (rs.map mkReadingJ)) := rfl
    rw [h0, sumLoopMonth_mkReadingJ, zero_add]
    rfl
  · have h0 : lastMonthConsumptionValue (mkSnapshot rs t b) d =
        catchShape (sumLoopMonth (prevMonthOf d).1 (prevMonthOf d).2 0
          (rs.map mkReadingJ)) := rfl
    rw [h0, sumLoopMonth_mkReadingJ, zero_add]
    rfl

/-! ## Claim C9 -/

/-- Counterexample to C9 as stated: the today-consumption sensor, an
energy presented value, returns the exact sum `0.125` unrounded — a
value that is not equal to its own two-decimal rounding — so not every
monetary/energy presented value is rounded to 2 decimal places at
presentation time (the consumption sensors and the passthrough monetary
sensors never round). -/
theorem claim_C9_counterexample :
    todayConsumptionValue
        (mkSnapshot [⟨⟨2024, 1, 10, 1, 0⟩, 1/8⟩] exampleStepTariff emptyBills)
        ⟨2024, 1, 10⟩ = .ok (some (1/8))
      ∧ roundHalfEven2 (1/8) ≠ (1/8 : ℚ) := by
  constructor
  · have h0 : todayConsumptionValue
        (mkSnapshot [⟨⟨2024, 1, 10, 1, 0⟩, 1/8⟩] exampleStepTariff emptyBills)
        ⟨2024, 1, 10⟩ =
        catchShape (sumLoopDate ⟨2024, 1, 10⟩ 0
          ([(⟨⟨2024, 1, 10, 1, 0⟩, 1/8⟩ : ReadingP)].map mkReadingJ)) := rfl
    rw [h0, sumLoopDate_mkReadingJ, zero_add]
    norm_num [tokyoDate, catchShape]
  · norm_num [roundHalfEven2]

/-- C9 amended: only the two cost sensors round, once, at the final
return (half-even to 2 decimal places); all internal accumulation — the
period sums, the step-walk, the daily-average division — is exact, and
the consumption sums are presented entirely unrounded. -/
theorem claim_C9_rounding_at_presentation_only :
    (∀ (rs : List ReadingP) (t : TariffP) (b : JValue) (d : Date),
      currentMonthCostValue (mkSnapshot rs t b) d =
        .ok (some (roundHalfEven2 (costForKwhP
          (((rs.filter fun r => decide ((tokyoDate r.startAt).year = d.year ∧
              (tokyoDate r.startAt).month = d.month)).map fun r => r.value).sum) t
          + t.standingCharge * (d.day : ℚ)))))
    ∧ (∀ (rs : List ReadingP) (t : TariffP) (b : JValue) (d : Date),
        1 ≤ d.month → d.month ≤ 12 → 1 ≤ d.day →
      monthlyEstimateValue (mkSnapshot rs t b) d =
        .ok (some (roundHalfEven2 (costForKwhP
          (((((rs.filter fun r => decide ((tokyoDate r.startAt).year = d.year ∧
              (tokyoDate r.startAt).month = d.month)).map fun r => r.value).sum)
            / (d.day : ℚ)) * (daysInMonth d.year d.month : ℚ)) t
          + t.standingCharge * (daysInMonth d.year d.month : ℚ)))))
    ∧ (∀ (rs : List ReadingP) (t : TariffP) (b : JValue) (d : Date),
      todayConsumptionValue (mkSnapshot rs t b) d =
        .ok (some (((rs.filter fun r => decide (tokyoDate r.startAt = d)).map
          fun r => r.value).sum))) := by
  refine ⟨fun rs t b d => ?_, fun rs t b d hm1 hm2 hd => ?_, fun rs t b d => ?_⟩
  · have h0 : currentMonthCostValue (mkSnapshot rs t b) d =
        catchShapeDec (sumLoopMonth d.year d.month 0 (rs.map mkReadingJ) >>=
          fun totalKwh => calculateCostForKwh totalKwh (mkProductJ t) >>=
          fun usageCost => getStandingCharge (mkProductJ t) >>=
          fun sc => pure (roundHalfEven2 (usageCost + sc * (d.day : ℚ)))) := rfl
    rw [h0, sumLoopMonth_mkReadingJ, zero_add, exBindOk, calculateCostForKwh_mk,
      exBindOk, getStandingCharge_mkProductJ, exBindOk]
    rfl
  · have h0 : monthlyEstimateValue (mkSnapshot rs t b) d =
        catchShapeDec (monthlyEstimateRaw (mkSnapshot rs t b) d) := rfl
    rw [h0]
    unfold monthlyEstimateRaw
    simp only [getReadings_mkSnapshot, getProduct_mkSnapshot, exBindOk]
    rw [sumLoopMonth_mkReadingJ, zero_add]
    simp only [exBindOk]
    rw [if_neg (show ¬ d.day = 0 by omega), if_pos ⟨hm1, hm2⟩]
    simp only [exBindPure]
    rw [calculateCostForKwh_mk]
    simp only [exBindOk]
    rw [getStandingCharge_mkProductJ]
    simp only [exBindOk]
    rfl
  · have h0 : todayConsumptionValue (mkSnapshot rs t b) d =
        catchShape (sumLoopDate d 0 (rs.map mkReadingJ)) := rfl
    rw [h0, sumLoopDate_mkReadingJ, zero_add]
    rfl

/-! ## Claim C5 -/

theorem daysInMonth_pos (y : Int) {m : Nat} (h1 : 1 ≤ m) (h2 : m ≤ 12) :
    0 < daysInMonth y m := by
  interval_cases m <;> simp [daysInMonth] <;> split <;> norm_num

/-- C5: on the last day of the month (days elapsed = days in the month),
the monthly-estimate sensor and the current-month-cost sensor compute the
same value from the same snapshot and clock, whatever the snapshot is:
the daily-average projection degenerates to the actual consumption and
the standing-charge day counts coincide. -/
theorem claim_C5_estimate_degenerates_to_cost (data : JValue) (d : Date)
    (hm1 : 1 ≤ d.month) (hm2 : d.month ≤ 12)
    (hd : d.day = daysInMonth d.year d.month) :
    monthlyEstimateValue data d = currentMonthCostValue data d := by
  have hdim : 0 < daysInMonth d.year d.month := daysInMonth_pos d.year hm1 hm2
  have hday0 : ¬ d.day = 0 := by omega
  unfold monthlyEstimateValue currentMonthCostValue
  by_cases hf : data.falsy = true
  · rw [if_pos hf, if_pos hf]
  · rw [if_neg hf, if_neg hf]
    congr 1
    unfold monthlyEstimateRaw currentMonthCostRaw
    cases hr : getReadings data with
    | error e => rfl
    | ok readings =>
      simp only [exBindOk]
      cases hp : getProduct data with
      | error e => rfl
      | ok productData =>
        simp only [exBindOk]
        cases hs : sumLoopMonth d.year d.month 0 readings with
        | error e => rfl
        | ok totalKwh =>
          simp only [exBindOk]
          rw [if_neg hday0, if_pos ⟨hm1, hm2⟩]
          simp only [exBindPure]
          have hcast : ((daysInMonth d.year d.month : Nat) : ℚ) = (d.day : ℚ) := by
            exact_mod_cast congrArg (fun n : Nat => (n : ℚ)) hd.symm
          have hkwh : totalKwh / (d.day : ℚ) * ((daysInMonth d.year d.month : Nat) : ℚ) =
              totalKwh := by
            rw [hcast]
            have : ((d.day : Nat) : ℚ) ≠ 0 := by
              exact_mod_cast hday0
            field_simp
          rw [hkwh, hcast]

/-- Witness for C5: a concrete snapshot evaluated on 2024-01-31, the
last day of a 31-day month. -/
theorem claim_C5_estimate_degenerates_to_cost_witness :
    monthlyEstimateValue (mkSnapshot [] exampleStepTariff emptyBills) ⟨2024, 1, 31⟩ =
      currentMonthCostValue (mkSnapshot [] exampleStepTariff emptyBills) ⟨2024, 1, 31⟩ :=
  claim_C5_estimate_degenerates_to_cost _ _ (by norm_num) (by norm_num) (by decide)

/-- Witness for the amended C9: the estimate conjunct applied to an
empty reading list on 2024-02-05 (its three hypotheses discharged),
evaluated: zero consumption costs nothing with the example tariff's zero
standing charge. -/
theorem claim_C9_rounding_at_presentation_only_witness :
    monthlyEstimateValue (mkSnapshot [] exampleStepTariff emptyBills)
      ⟨2024, 2, 5⟩ = .ok (some 0) := by
  rw [claim_C9_rounding_at_presentation_only.2.1 [] exampleStepTariff emptyBills
    ⟨2024, 2, 5⟩ (by norm_num) (by norm_num) (by norm_num)]
  norm_num [costForKwhP, sortStepsP, exampleStepTariff, exampleSteps, pySorted,
    pyInsert, codeWalk, stepTake, min_def, roundHalfEven2]

/-! ## Claims C6 and C10 -/

/-- C6: the last-bill value dispatches on the bill node's `__typename`:
`PeriodBasedDocumentType` and `StatementType` yield
`totalCharges.grossTotal`, `InvoiceType` yields `grossAmount`, and an
empty (or absent) bills list yields no value; in particular an
`InvoiceType` with `grossAmount` 5000 yields 5000 and a `StatementType`
with `totalCharges.grossTotal` 7200 yields 7200. -/
theorem claim_C6_bill_variant_dispatch :
    (∀ (rs : List ReadingP) (t : TariffP) (g : ℚ),
      lastBillValue (mkSnapshot rs t (mkBills (.obj
          [("__typename", .str "PeriodBasedDocumentType"),
           ("totalCharges", .obj [("grossTotal", .num g)])]))) =
        .ok (some (.num g))
      ∧ lastBillValue (mkSnapshot rs t (mkBills (.obj
          [("__typename", .str "InvoiceType"), ("grossAmount", .num g)]))) =
        .ok (some (.num g))
      ∧ lastBillValue (mkSnapshot rs t (mkBills (.obj
          [("__typename", .str "StatementType"),
           ("totalCharges", .obj [("grossTotal", .num g)])]))) =
        .ok (some (.num g))
      ∧ lastBillValue (mkSnapshot rs t emptyBills) = .ok none)
    ∧ lastBillValue (mkSnapshot [] exampleStepTariff (mkBills (.obj
        [("__typename", .str "InvoiceType"), ("grossAmount", .num 5000)]))) =
      .ok (some (.num 5000))
    ∧ lastBillValue (mkSnapshot [] exampleStepTariff (mkBills (.obj
        [("__typename", .str "StatementType"),
         ("totalCharges", .obj [("grossTotal", .num 7200)])]))) =
      .ok (some (.num 7200)) := by
  exact ⟨fun rs t g => ⟨rfl, rfl, rfl, rfl⟩, rfl, rfl⟩

/-- C10: a non-empty bills list whose first node carries an unrecognized
`__typename` yields no last-bill value, even when the node itself has a
`totalCharges.grossTotal` and a `grossAmount` field. -/
theorem claim_C10_unknown_bill_variant_unavailable
    (rs : List ReadingP) (t : TariffP) (tn : String) (g1 g2 : ℚ)
    (h1 : tn ≠ "PeriodBasedDocumentType") (h2 : tn ≠ "InvoiceType")
    (h3 : tn ≠ "StatementType") :
    lastBillValue (mkSnapshot rs t (mkBills (.obj
        [("__typename", .str tn),
         ("totalCharges", .obj [("grossTotal", .num g1)]),
         ("grossAmount", .num g2)]))) = .ok none := by
  have hraw : lastBillRaw (mkSnapshot rs t (mkBills (.obj
      [("__typename", .str tn),
       ("totalCharges", .obj [("grossTotal", .num g1)]),
       ("grossAmount", .num g2)]))) =
      (if jeqStr (.str tn) "PeriodBasedDocumentType" then
        (.ok (some (.num g1)) : Except PyExc (Option JValue))
      else if jeqStr (.str tn) "InvoiceType" then
        .ok (some (.num g2))
      else if jeqStr (.str tn) "StatementType" then
        .ok (some (.num g1))
      else .ok none) := rfl
  have hraw2 : lastBillRaw (mkSnapshot rs t (mkBills (.obj
      [("__typename", .str tn),
       ("totalCharges", .obj [("grossTotal", .num g1)]),
       ("grossAmount", .num g2)]))) = .ok none := by
    rw [hraw]
    simp [jeqStr, h1, h2, h3]
  unfold lastBillValue
  rw [falsy_mkSnapshot]
  simp only [Bool.false_eq_true, if_false]
  rw [hraw2]

/-- Witness for C10 at the concrete unrecognized variant
`"CreditNoteType"`. -/
theorem claim_C10_unknown_bill_variant_unavailable_witness :
    lastBillValue (mkSnapshot [] exampleStepTariff (mkBills (.obj
        [("__typename", .str "CreditNoteType"),
         ("totalCharges", .obj [("grossTotal", .num 1234)]),
         ("grossAmount", .num 9)]))) = .ok none :=
  claim_C10_unknown_bill_variant_unavailable [] exampleStepTariff
    "CreditNoteType" 1234 9 (by decide) (by decide) (by decide)

/-! ## Claim C4 -/

/-- C4: `async_get_token` stores expiry = issue time + exactly 50
minutes; `_ensure_valid_token` is a no-op when a token exists and the
current time is strictly before the stored expiry, and otherwise
re-authenticates; consequently a call 49 minutes after issue does not
re-authenticate while a call 51 minutes after issue does. -/
theorem claim_C4_token_lifecycle :
    (∀ (now : Int) (tok : String),
      (asyncGetToken now tok).tokenExpiry = some (now + 50))
    ∧ (∀ (now : Int) (tok : String) (s : ClientState) (t : String) (e : Int),
        s.token = some t → s.tokenExpiry = some e → now < e →
        ensureValidToken now tok s = (s, false))
    ∧ (∀ (now : Int) (tok : String) (s : ClientState),
        (s.token = none ∨ s.tokenExpiry = none ∨
          (∃ e, s.tokenExpiry = some e ∧ e ≤ now)) →
        ensureValidToken now tok s = (asyncGetToken now tok, true))
    ∧ (∀ (t0 : Int) (tokA tokB : String),
        ensureValidToken (t0 + 49) tokB (asyncGetToken t0 tokA) =
          (asyncGetToken t0 tokA, false))
    ∧ (∀ (t0 : Int) (tokA tokB : String),
        ensureValidToken (t0 + 51) tokB (asyncGetToken t0 tokA) =
          (asyncGetToken (t0 + 51) tokB, true)) := by
  refine ⟨fun now tok => rfl, ?_, ?_, ?_, ?_⟩
  · intro now tok s t e ht he hlt
    obtain ⟨st, se⟩ := s
    cases ht
    cases he
    simp only [ensureValidToken, if_neg (not_le.mpr hlt)]
  · intro now tok s hcase
    obtain ⟨st, se⟩ := s
    rcases hcase with h | h | ⟨e, he, hle⟩
    · cases h
      rfl
    · cases h
      cases st with
      | none => rfl
      | some t => rfl
    · cases he
      cases st with
      | none => rfl
      | some t => simp only [ensureValidToken, if_pos hle]
  · intro t0 tokA tokB
    simp only [asyncGetToken, ensureValidToken]
    rw [if_neg (by omega : ¬ t0 + 50 ≤ t0 + 49)]
  · intro t0 tokA tokB
    simp only [asyncGetToken, ensureValidToken]
    rw [if_pos (by omega : t0 + 50 ≤ t0 + 51)]

/-- Witness for C4: the no-op clause applied at a concrete unexpired
state. -/
theorem claim_C4_token_lifecycle_witness :
    ensureValidToken 10 "fresh" ⟨some "tok", some 60⟩ = (⟨some "tok", some 60⟩, false) :=
  claim_C4_token_lifecycle.2.1 10 "fresh" ⟨some "tok", some 60⟩ "tok" 60 rfl rfl
    (by norm_num)

/-! ## Claim C2 -/

/-- C2: the `async_get_data` retry discipline.  For every response
stream: a first attempt whose `errors` array has a JWT-expiry signal, or
— with no `errors` key — a 401 status, triggers exactly one
re-authentication and one replay, and a clean second response yields the
second attempt's `data.account` payload; a second attempt that still
signals expiry fails with the provider error list and no third POST is
made; a first-attempt `errors` array with no expiry signal fails
immediately with no retry and no re-authentication. -/
theorem claim_C2_get_data_retry_once (resp : Nat → Resp) :
    (∀ errs, (resp 0).errors = some errs → hasJwtError errs = true →
      (resp 1).errors = none → (resp 1).status < 400 →
      asyncGetData resp = ⟨extractAccount (resp 1).body, 2, 1⟩)
    ∧ (∀ errs errs1, (resp 0).errors = some errs → hasJwtError errs = true →
        (resp 1).errors = some errs1 → hasJwtError errs1 = true →
        asyncGetData resp = ⟨.error (.gqlErrorsAfterRetry errs1), 2, 1⟩)
    ∧ ((resp 0).errors = none → (resp 0).status = 401 →
        (resp 1).errors = none → (resp 1).status < 400 →
        asyncGetData resp = ⟨extractAccount (resp 1).body, 2, 1⟩)
    ∧ (∀ errs, (resp 0).errors = some errs → hasJwtError errs = false →
        asyncGetData resp = ⟨.error (.gqlErrors errs), 1, 0⟩) := by
  refine ⟨?_, ?_, ?_, ?_⟩
  · intro errs h0 hjwt h1 hst
    unfold asyncGetData attemptOutcome
    rw [h0, h1]
    simp only [hjwt, if_pos trivial, Bool.false_and, Bool.false_eq_true, if_false,
      if_true, if_neg (by omega : ¬ 400 ≤ (resp 1).status)]
  · intro errs errs1 h0 hjwt h1 hjwt1
    unfold asyncGetData attemptOutcome
    rw [h0, h1]
    simp only [hjwt, hjwt1, if_true, Bool.false_eq_true, if_false]
  · intro h0 hst h1 hst1
    unfold asyncGetData attemptOutcome
    rw [h0, h1, hst]
    simp only [Bool.true_and, beq_self_eq_true, if_true, Bool.false_and,
      Bool.false_eq_true, if_false, if_neg (by omega : ¬ 400 ≤ (resp 1).status)]
  · intro errs h0 hjwt
    unfold asyncGetData attemptOutcome
    rw [h0]
    simp only [hjwt, Bool.false_eq_true, if_false]

/-- Witness for C2: each clause applied to a concrete response stream
with its hypotheses discharged: an expiry error then a clean response;
two expiry errors; a 401 then a clean response; a non-expiry error. -/
theorem claim_C2_get_data_retry_once_witness :
    asyncGetData (fun n => if n = 0 then
        ⟨200, some [⟨"Signature of the JWT has expired", "KT-CT-1124"⟩],
          .obj []⟩
      else ⟨200, none, .obj [("data", .obj [("account", .num 7)])]⟩) =
      ⟨.ok (.num 7), 2, 1⟩
    ∧ asyncGetData (fun _ =>
        ⟨200, some [⟨"JWT has expired by now", ""⟩], .obj []⟩) =
      ⟨.error (.gqlErrorsAfterRetry [⟨"JWT has expired by now", ""⟩]), 2, 1⟩
    ∧ asyncGetData (fun n => if n = 0 then ⟨401, none, .obj []⟩
        else ⟨200, none, .obj [("data", .obj [("account", .num 8)])]⟩) =
      ⟨.ok (.num 8), 2, 1⟩
    ∧ asyncGetData (fun _ =>
        ⟨200, some [⟨"Variable $accountNumber is invalid", "KT-CT-4177"⟩], .obj []⟩) =
      ⟨.error (.gqlErrors [⟨"Variable $accountNumber is invalid", "KT-CT-4177"⟩]), 1, 0⟩ := by
  refine ⟨?_, ?_, ?_, ?_⟩
  · rw [(claim_C2_get_data_retry_once _).1 [⟨"Signature of the JWT has expired",
      "KT-CT-1124"⟩] rfl (by decide) rfl (by norm_num)]
    rfl
  · rw [(claim_C2_get_data_retry_once _).2.1 [⟨"JWT has expired by now", ""⟩]
      [⟨"JWT has expired by now", ""⟩] rfl (by decide) rfl (by decide)]
  · rw [(claim_C2_get_data_retry_once _).2.2.1 rfl rfl rfl (by norm_num)]
    rfl
  · rw [(claim_C2_get_data_retry_once _).2.2.2
      [⟨"Variable $accountNumber is invalid", "KT-CT-4177"⟩] rfl (by decide)]

/-! ## Claim C7 -/

/-- Bind of an error in `Except PyExc` is that error. -/
theorem exBindErr {α β : Type} (e : PyExc) (f : α → Except PyExc β) :
    ((Except.error e : Except PyExc α) >>= f) = .error e := rfl

theorem catchShape_no_shape (r : Except PyExc ℚ) (e : PyExc)
    (h : catchShape r = .error e) :
    e ≠ .keyError ∧ e ≠ .indexError ∧ e ≠ .typeError := by
  cases r with
  | ok v => exact absurd h (by simp [catchShape])
  | error pe =>
    cases pe with
    | keyError => exact absurd h (by simp [catchShape])
    | indexError => exact absurd h (by simp [catchShape])
    | typeError => exact absurd h (by simp [catchShape])
    | valueError =>
      simp only [catchShape, Except.error.injEq] at h
      subst h
      exact ⟨by decide, by decide, by decide⟩
    | invalidOperation =>
      simp only [catchShape, Except.error.injEq] at h
      subst h
      exact ⟨by decide, by decide, by decide⟩
    | attrError =>
      simp only [catchShape, Except.error.injEq] at h
      subst h
      exact ⟨by decide, by decide, by decide⟩

theorem catchShapeDec_no_shape (r : Except PyExc ℚ) (e : PyExc)
    (h : catchShapeDec r = .error e) :
    e ≠ .keyError ∧ e ≠ .indexError ∧ e ≠ .typeError ∧ e ≠ .invalidOperation := by
  cases r with
  | ok v => exact absurd h (by simp [catchShapeDec])
  | error pe =>
    cases pe with
    | keyError => exact absurd h (by simp [catchShapeDec])
    | indexError => exact absurd h (by simp [catchShapeDec])
    | typeError => exact absurd h (by simp [catchShapeDec])
    | invalidOperation => exact absurd h (by simp [catchShapeDec])
    | valueError =>
      simp only [catchShapeDec, Except.error.injEq] at h
      subst h
      exact ⟨by decide, by decide, by decide, by decide⟩
    | attrError =>
      simp only [catchShapeDec, Except.error.injEq] at h
      subst h
      exact ⟨by decide, by decide, by decide, by decide⟩

theorem indexStr_shape (v : JValue) (k : String) (e : PyExc)
    (h : indexStr v k = .error e) : ShapeErr e := by
  unfold indexStr at h
  split at h
  · split at h
    · exact absurd h (by simp)
    · simp only [Except.error.injEq] at h
      subst h
      exact Or.inl rfl
  · simp only [Except.error.injEq] at h
    subst h
    exact Or.inr (Or.inr rfl)

theorem indexNat_shape (v : JValue) (i : Nat) (e : PyExc)
    (h : indexNat v i = .error e) : ShapeErr e := by
  unfold indexNat at h
  split at h
  · split at h
    · exact absurd h (by simp)
    · simp only [Except.error.injEq] at h
      subst h
      exact Or.inr (Or.inl rfl)
  · simp only [Except.error.injEq] at h
    subst h
    exact Or.inl rfl
  · simp only [Except.error.injEq] at h
    subst h
    exact Or.inr (Or.inr rfl)

theorem bindShape {α β : Type} (x : Except PyExc α) (f : α → Except PyExc β)
    (hx : ∀ e, x = .error e → ShapeErr e)
    (hf : ∀ a e, f a = .error e → ShapeErr e) :
    ∀ e, (x >>= f) = .error e → ShapeErr e := by
  intro e h
  cases x with
  | error e0 =>
    rw [exBindErr] at h
    simp only [Except.error.injEq] at h
    subst h
    exact hx e0 rfl
  | ok a =>
    rw [exBindOk] at h
    exact hf a e h

theorem getProduct_shape (data : JValue) :
    ∀ e, getProduct data = .error e → ShapeErr e := by
  unfold getProduct
  refine bindShape _ _ (bindShape _ _ (bindShape _ _ (bindShape _ _ (bindShape _ _
    (bindShape _ _ (fun e h => indexStr_shape _ _ e h)
      (fun a e h => indexNat_shape _ _ e h))
    (fun a e h => indexStr_shape _ _ e h))
    (fun a e h => indexNat_shape _ _ e h))
    (fun a e h => indexStr_shape _ _ e h))
    (fun a e h => indexNat_shape _ _ e h))
    (fun a e h => indexStr_shape _ _ e h)

theorem productRaw_shape (data : JValue) :
    ∀ e, productRaw data = .error e → ShapeErr e := by
  unfold productRaw
  exact bindShape _ _ (getProduct_shape data) (fun a e h => indexStr_shape _ _ e h)

/-- Counterexample to C7 as stated: a reading with a malformed `startAt`
makes the today-consumption computation raise `ValueError` past the
property boundary (it is not in the sensor's `except` tuple), and a
shape failure in the product sensor yields the sentinel value
`"Unknown"` rather than no value. -/
theorem claim_C7_counterexample :
    todayConsumptionValue badStartSnapshot ⟨2024, 1, 1⟩ = .error .valueError
    ∧ productValue (.obj [("balance", .num 5)]) = .ok (some (.str "Unknown")) :=
  ⟨rfl, rfl⟩

/-- C7 amended: shape failures (missing key, empty list, wrong type) are
isolated — they never escape a sensor's `native_value` (the consumption
sensors convert them to no value; the cost sensors additionally catch
`decimal.InvalidOperation`; the product sensor never raises at all,
returning `"Unknown"` on failure) and each presented value is an
independent function of the snapshot, so one value's failure leaves
every other value unchanged; but malformed field content can raise
(`ValueError` escapes every sensor, `InvalidOperation` escapes the
consumption sensors).  The last two conjuncts show a missing-readings
snapshot making the today value unavailable while the product value is
still served. -/
theorem claim_C7_failure_isolation :
    (∀ (data : JValue) (d : Date) (e : PyExc),
      todayConsumptionValue data d = .error e →
        e ≠ .keyError ∧ e ≠ .indexError ∧ e ≠ .typeError)
    ∧ (∀ (data : JValue) (d : Date) (e : PyExc),
      currentMonthCostValue data d = .error e →
        e ≠ .keyError ∧ e ≠ .indexError ∧ e ≠ .typeError ∧ e ≠ .invalidOperation)
    ∧ (∀ (data : JValue) (e : PyExc), productValue data ≠ .error e)
    ∧ (∀ (data : JValue) (d : Date), computeAll data d =
        ⟨todayConsumptionValue data d, yesterdayConsumptionValue data d,
         currentMonthConsumptionValue data d, lastMonthConsumptionValue data d,
         currentMonthCostValue data d, monthlyEstimateValue data d,
         balanceValue data, overdueBalanceValue data, lastBillValue data,
         productValue data⟩)
    ∧ todayConsumptionValue missingReadingsSnapshot ⟨2024, 1, 1⟩ = .ok none
    ∧ productValue missingReadingsSnapshot = .ok (some (.str "example")) := by
  refine ⟨?_, ?_, ?_, fun data d => rfl, rfl, rfl⟩
  · intro data d e h
    unfold todayConsumptionValue at h
    split at h
    · exact absurd h (by simp)
    · exact catchShape_no_shape _ e h
  · intro data d e h
    unfold currentMonthCostValue at h
    split at h
    · exact absurd h (by simp)
    · exact catchShapeDec_no_shape _ e h
  · intro data e h
    unfold productValue at h
    split at h
    · exact absurd h (by simp)
    · revert h
      cases hr : productRaw data with
      | ok v => simp
      | error pe =>
        have := productRaw_shape data pe hr
        rcases this with h1 | h1 | h1 <;> subst h1 <;> simp

/-- Witness for the amended C7: the first clause applied to the
malformed-`startAt` snapshot, whose escaping exception is indeed not a
shape error. -/
theorem claim_C7_failure_isolation_witness :
    PyExc.valueError ≠ PyExc.keyError ∧ PyExc.valueError ≠ PyExc.indexError ∧
      PyExc.valueError ≠ PyExc.typeError :=
  claim_C7_failure_isolation.1 badStartSnapshot ⟨2024, 1, 1⟩ .valueError rfl

/-! ## Claim C8: analytic properties of the step walk -/

theorem stepTake_le_self (r : ℚ) (s : StepP) : stepTake r s ≤ r := by
  unfold stepTake
  cases s.stepEnd with
  | none => exact le_refl r
  | some e => exact min_le_left _ _

theorem stepTake_mono (s : StepP) {a b : ℚ} (hab : a ≤ b) :
    stepTake a s ≤ stepTake b s := by
  unfold stepTake
  cases s.stepEnd with
  | none => exact hab
  | some e => exact min_le_min hab (le_refl _)

theorem stepTake_pos (s : StepP) (hw : s.posWidth) {r : ℚ} (hr : 0 < r) :
    0 < stepTake r s := by
  unfold stepTake
  cases he : s.stepEnd with
  | none => exact hr
  | some e => exact lt_min hr (by have := hw e he; linarith)

theorem stepTake_sub_mono (s : StepP) {a b : ℚ} (hab : a ≤ b) :
    a - stepTake a s ≤ b - stepTake b s := by
  unfold stepTake
  cases s.stepEnd with
  | none => simp
  | some e =>
    rcases le_total a (e - s.stepStart) with h1 | h1 <;>
      rcases le_total b (e - s.stepStart) with h2 | h2 <;>
      simp [min_eq_left, min_eq_right, h1, h2] <;> linarith

theorem stepTake_lip (s : StepP) {a b : ℚ} (hab : a ≤ b) :
    stepTake b s - stepTake a s ≤ b - a := by
  unfold stepTake
  cases s.stepEnd with
  | none => simp
  | some e =>
    rcases le_total a (e - s.stepStart) with h1 | h1 <;>
      rcases le_total b (e - s.stepStart) with h2 | h2 <;>
      simp [min_eq_left, min_eq_right, h1, h2] <;> linarith

theorem codeWalk_nonneg (l : List StepP)
    (hp : ∀ s ∈ l, 0 ≤ s.pricePerUnit) : ∀ r : ℚ, 0 ≤ codeWalk r l := by
  induction l with
  | nil => intro r; simp [codeWalk]
  | cons s rest ih =>
    intro r
    have hps := hp s (List.mem_cons_self s rest)
    have hpr : ∀ x ∈ rest, 0 ≤ x.pricePerUnit :=
      fun x hx => hp x (List.mem_cons_of_mem s hx)
    simp only [codeWalk]
    by_cases hk : 0 < stepTake r s
    · rw [if_pos hk]
      by_cases hrem : r - stepTake r s ≤ 0
      · rw [if_pos hrem]
        exact mul_nonneg hk.le hps
      · rw [if_neg hrem]
        exact add_nonneg (mul_nonneg hk.le hps) (ih hpr _)
    · rw [if_neg hk]
      by_cases hrem : r ≤ 0
      · rw [if_pos hrem]
      · rw [if_neg hrem]
        exact ih hpr _

theorem codeWalk_mono (l : List StepP) (hw : ∀ s ∈ l, s.posWidth)
    (hp : ∀ s ∈ l, 0 ≤ s.pricePerUnit) :
    ∀ a b : ℚ, a ≤ b → codeWalk a l ≤ codeWalk b l := by
  induction l with
  | nil => intro a b hab; simp [codeWalk]
  | cons s rest ih =>
    intro a b hab
    have hws := hw s (List.mem_cons_self s rest)
    have hps := hp s (List.mem_cons_self s rest)
    have hwr : ∀ x ∈ rest, x.posWidth := fun x hx => hw x (List.mem_cons_of_mem s hx)
    have hpr : ∀ x ∈ rest, 0 ≤ x.pricePerUnit :=
      fun x hx => hp x (List.mem_cons_of_mem s hx)
    have hkab : stepTake a s ≤ stepTake b s := stepTake_mono s hab
    by_cases hka : 0 < stepTake a s
    · have hkb : 0 < stepTake b s := lt_of_lt_of_le hka hkab
      have hrem : a - stepTake a s ≤ b - stepTake b s := stepTake_sub_mono s hab
      simp only [codeWalk]
      rw [if_pos hka, if_pos hkb]
      by_cases harem : a - stepTake a s ≤ 0
      · rw [if_pos harem]
        by_cases hbrem : b - stepTake b s ≤ 0
        · rw [if_pos hbrem]
          exact mul_le_mul_of_nonneg_right hkab hps
        · rw [if_neg hbrem]
          have h1 : stepTake a s * s.pricePerUnit ≤ stepTake b s * s.pricePerUnit :=
            mul_le_mul_of_nonneg_right hkab hps
          have h2 : 0 ≤ codeWalk (b - stepTake b s) rest := codeWalk_nonneg rest hpr _
          linarith
      · rw [if_neg harem]
        have hbrem : ¬ b - stepTake b s ≤ 0 := by
          push_neg at harem ⊢
          linarith
        rw [if_neg hbrem]
        have h1 : stepTake a s * s.pricePerUnit ≤ stepTake b s * s.pricePerUnit :=
          mul_le_mul_of_nonneg_right hkab hps
        have h2 := ih hwr hpr (a - stepTake a s) (b - stepTake b s) hrem
        linarith
    · have ha0 : a ≤ 0 := by
        by_contra h
        push_neg at h
        exact hka (stepTake_pos s hws h)
      have hza : codeWalk a (s :: rest) = 0 := by
        simp only [codeWalk]
        rw [if_neg hka, if_pos ha0]
      rw [hza]
      exact codeWalk_nonneg (s :: rest) hp b

theorem codeWalk_le_mul (M : ℚ) (hM : 0 ≤ M) (l : List StepP)
    (hple : ∀ s ∈ l, s.pricePerUnit ≤ M) :
    ∀ r : ℚ, codeWalk r l ≤ M * max r 0 := by
  induction l with
  | nil =>
    intro r
    simp only [codeWalk]
    exact mul_nonneg hM (le_max_right r 0)
  | cons s rest ih =>
    intro r
    have hps := hple s (List.mem_cons_self s rest)
    have hpr : ∀ x ∈ rest, x.pricePerUnit ≤ M :=
      fun x hx => hple x (List.mem_cons_of_mem s hx)
    have hkr : stepTake r s ≤ r := stepTake_le_self r s
    simp only [codeWalk]
    by_cases hk : 0 < stepTake r s
    · rw [if_pos hk]
      have hrmax : r ≤ max r 0 := le_max_left r 0
      by_cases hrem : r - stepTake r s ≤ 0
      · rw [if_pos hrem]
        calc stepTake r s * s.pricePerUnit ≤ stepTake r s * M :=
              mul_le_mul_of_nonneg_left hps hk.le
          _ = M * stepTake r s := mul_comm _ _
          _ ≤ M * max r 0 := mul_le_mul_of_nonneg_left (le_trans hkr hrmax) hM
      · rw [if_neg hrem]
        push_neg at hrem
        have h1 : stepTake r s * s.pricePerUnit ≤ M * stepTake r s := by
          rw [mul_comm M _]
          exact mul_le_mul_of_nonneg_left hps hk.le
        have h2 : codeWalk (r - stepTake r s) rest ≤ M * max (r - stepTake r s) 0 :=
          ih hpr _
        have h3 : max (r - stepTake r s) 0 = r - stepTake r s :=
          max_eq_left hrem.le
        have h4 : max r 0 = r := max_eq_left (by linarith)
        rw [h3] at h2
        rw [h4]
        linarith
    · rw [if_neg hk]
      by_cases hrem : r ≤ 0
      · rw [if_pos hrem]
        exact mul_nonneg hM (le_max_right r 0)
      · rw [if_neg hrem]
        exact ih hpr r

theorem codeWalk_lip (M : ℚ) (hM : 0 ≤ M) (l : List StepP)
    (hw : ∀ s ∈ l, s.posWidth) (hple : ∀ s ∈ l, s.pricePerUnit ≤ M) :
    ∀ a b : ℚ, a ≤ b → codeWalk b l - codeWalk a l ≤ M * (b - a) := by
  induction l with
  | nil =>
    intro a b hab
    simp only [codeWalk, sub_zero, sub_self]
    exact mul_nonneg hM (by linarith)
  | cons s rest ih =>
    intro a b hab
    have hws := hw s (List.mem_cons_self s rest)
    have hps := hple s (List.mem_cons_self s rest)
    have hwr : ∀ x ∈ rest, x.posWidth := fun x hx => hw x (List.mem_cons_of_mem s hx)
    have hpr : ∀ x ∈ rest, x.pricePerUnit ≤ M :=
      fun x hx => hple x (List.mem_cons_of_mem s hx)
    have hkab : stepTake a s ≤ stepTake b s := stepTake_mono s hab
    have hkdiff : stepTake b s - stepTake a s ≤ b - a := stepTake_lip s hab
    by_cases hka : 0 < stepTake a s
    · have hkb : 0 < stepTake b s := lt_of_lt_of_le hka hkab
      have hrem : a - stepTake a s ≤ b - stepTake b s := stepTake_sub_mono s hab
      simp only [codeWalk]
      rw [if_pos hka, if_pos hkb]
      have hmul : stepTake b s * s.pricePerUnit - stepTake a s * s.pricePerUnit ≤
          M * (stepTake b s - stepTake a s) := by
        have : (stepTake b s - stepTake a s) * s.pricePerUnit ≤
            (stepTake b s - stepTake a s) * M :=
          mul_le_mul_of_nonneg_left hps (by linarith)
        nlinarith
      by_cases hbrem : b - stepTake b s ≤ 0
      · have harem : a - stepTake a s ≤ 0 := le_trans hrem hbrem
        rw [if_pos harem, if_pos hbrem]
        nlinarith
      · rw [if_neg hbrem]
        push_neg at hbrem
        by_cases harem : a - stepTake a s ≤ 0
        · rw [if_pos harem]
          have h2 : codeWalk (b - stepTake b s) rest ≤ M * max (b - stepTake b s) 0 :=
            codeWalk_le_mul M hM rest hpr _
          rw [max_eq_left hbrem.le] at h2
          nlinarith
        · rw [if_neg harem]
          have h2 := ih hwr hpr (a - stepTake a s) (b - stepTake b s) hrem
          nlinarith
    · have ha0 : a ≤ 0 := by
        by_contra h
        push_neg at h
        exact hka (stepTake_pos s hws h)
      have hza : codeWalk a (s :: rest) = 0 := by
        simp only [codeWalk]
        rw [if_neg hka, if_pos ha0]
      rw [hza, sub_zero]
      have h2 : codeWalk b (s :: rest) ≤ M * max b 0 :=
        codeWalk_le_mul M hM (s :: rest) hple b
      have h3 : max b 0 ≤ b - a := max_le (by linarith) (by linarith)
      calc codeWalk b (s :: rest) ≤ M * max b 0 := h2
        _ ≤ M * (b - a) := mul_le_mul_of_nonneg_left h3 hM

theorem maxStepPrice_nonneg (l : List StepP) : 0 ≤ maxStepPrice l := by
  induction l with
  | nil => exact le_refl 0
  | cons s rest ih =>
    simp only [maxStepPrice, List.foldr_cons]
    exact le_trans ih (le_max_right _ _)

theorem le_maxStepPrice (l : List StepP) : ∀ s ∈ l, s.pricePerUnit ≤ maxStepPrice l := by
  induction l with
  | nil => intro s hs; cases hs
  | cons x rest ih =>
    intro s hs
    rcases List.mem_cons.mp hs with h | h
    · subst h
      exact le_max_left _ _
    · exact le_trans (ih s h) (le_max_right _ _)

theorem chainFrom_start_ge {b : ℚ} {l : List StepP} (h : ChainFrom b l) :
    ∀ s ∈ l, b ≤ s.stepStart := by
  induction h with
  | last b p =>
    intro s hs
    simp only [List.mem_singleton] at hs
    subst hs
    exact le_refl b
  | cons b e p rest hbe hch ih =>
    intro s hs
    rcases List.mem_cons.mp hs with h1 | h1
    · subst h1
      exact le_refl b
    · exact le_trans hbe.le (ih s h1)

theorem codeWalk_within (s : StepP) (rest : List StepP) (r : ℚ) (h0 : 0 ≤ r)
    (hend : ∀ e, s.stepEnd = some e → r ≤ e - s.stepStart) :
    codeWalk r (s :: rest) = r * s.pricePerUnit := by
  have hk : stepTake r s = r := by
    unfold stepTake
    cases he : s.stepEnd with
    | none => rfl
    | some e => exact min_eq_left (hend e he)
  simp only [codeWalk]
  rw [hk]
  by_cases hr : 0 < r
  · rw [if_pos hr, if_pos (by linarith : r - r ≤ 0)]
  · have h00 : r = 0 := le_antisymm (not_lt.mp hr) h0
    rw [if_neg hr, if_pos (le_of_eq h00), h00, zero_mul]

theorem codeWalk_skip (p b e : ℚ) (rest : List StepP) (hbe : b < e) (x : ℚ)
    (hex : e ≤ x) :
    codeWalk (x - b) (⟨p, b, some e⟩ :: rest) =
      (e - b) * p + codeWalk (x - e) rest := by
  have hk : stepTake (x - b) ⟨p, b, some e⟩ = e - b := by
    unfold stepTake
    simp only
    exact min_eq_right (by linarith)
  simp only [codeWalk]
  rw [hk]
  rw [if_pos (by linarith : (0:ℚ) < e - b)]
  have hsub : x - b - (e - b) = x - e := by ring
  rw [hsub]
  by_cases hxe : x - e ≤ 0
  · rw [if_pos hxe, codeWalk_nonpos rest _ hxe, add_zero]
  · rw [if_neg hxe]

theorem codeWalk_segment {b : ℚ} {l : List StepP} (hch : ChainFrom b l) :
    ∀ s ∈ l, ∀ x : ℚ, s.stepStart ≤ x →
      (∀ e, s.stepEnd = some e → x ≤ e) →
      codeWalk (x - b) l =
        codeWalk (s.stepStart - b) l + s.pricePerUnit * (x - s.stepStart) := by
  induction hch with
  | last b p =>
    intro s hs x hx hxe
    simp only [List.mem_singleton] at hs
    subst hs
    simp only at hx hxe ⊢
    rw [codeWalk_within _ _ (x - b) (by linarith) (by intro e he; cases he),
      codeWalk_within _ _ (b - b) (by linarith) (by intro e he; cases he)]
    simp only
    ring
  | cons b e p rest hbe hch ih =>
    intro s hs x hx hxe
    rcases List.mem_cons.mp hs with h1 | h1
    · subst h1
      simp only at hx hxe ⊢
      have hxe' : x ≤ e := hxe e rfl
      rw [codeWalk_within _ _ (x - b) (by linarith)
          (by intro e' he'; simp only [Option.some.injEq] at he'; subst he'; linarith),
        codeWalk_within _ _ (b - b) (by linarith)
          (by intro e' he'; simp only [Option.some.injEq] at he'; subst he'; linarith)]
      simp only
      ring
    · have hse : e ≤ s.stepStart := chainFrom_start_ge hch s h1
      have hx' : e ≤ x := le_trans hse hx
      rw [codeWalk_skip p b e rest hbe x hx',
        codeWalk_skip p b e rest hbe s.stepStart hse,
        ih s h1 x hx hxe]
      ring

/-- Counterexample to C8 as stated: with a valid step set partitioning
`[0, ∞)` but a negative fuel-cost adjustment (−100 JPY/kWh, a value the
fuel-adjustment mechanism genuinely allows), `cost-for-kWh` is not
monotonically non-decreasing: the cost of 1 kWh is below the cost of
0 kWh. -/
theorem claim_C8_counterexample :
    ChainFrom 0 (sortStepsP negFuelTariff.steps)
    ∧ (0 : ℚ) ≤ 0 ∧ (0 : ℚ) ≤ 1
    ∧ costForKwhP 1 negFuelTariff < costForKwhP 0 negFuelTariff := by
  refine ⟨?_, le_refl 0, by norm_num, ?_⟩
  · rw [show sortStepsP negFuelTariff.steps = negFuelTariff.steps from rfl]
    exact ChainFrom.last 0 20
  · norm_num [costForKwhP, negFuelTariff, sortStepsP, pySorted, pyInsert,
      codeWalk, stepTake, min_def]

/-- C8 amended: for a tariff whose sorted steps partition `[0, ∞)` and
whose step prices and fuel adjustment are non-negative, `cost-for-kWh`
is monotonically non-decreasing in `total_kwh`, (uniformly) continuous
in `total_kwh`, and linear on each step's segment with marginal rate
exactly that step's price plus the fuel-adjustment rate — so at a step
boundary the marginal rate changes to exactly the next step's price. -/
theorem claim_C8_cost_monotone_continuous (t : TariffP)
    (hch : ChainFrom 0 (sortStepsP t.steps))
    (hp : ∀ s ∈ sortStepsP t.steps, 0 ≤ s.pricePerUnit)
    (hf : 0 ≤ t.fuelAdj) :
    (∀ a b : ℚ, 0 ≤ a → a ≤ b → costForKwhP a t ≤ costForKwhP b t)
    ∧ (∀ ε : ℚ, 0 < ε → ∃ δ : ℚ, 0 < δ ∧ ∀ a b : ℚ,
        |b - a| < δ → |costForKwhP b t - costForKwhP a t| < ε)
    ∧ (∀ s ∈ sortStepsP t.steps, ∀ x : ℚ, s.stepStart ≤ x →
        (∀ e, s.stepEnd = some e → x ≤ e) →
        costForKwhP x t = costForKwhP s.stepStart t +
          (s.pricePerUnit + t.fuelAdj) * (x - s.stepStart)) := by
  have hw : ∀ s ∈ sortStepsP t.steps, s.posWidth := chainFrom_posWidth hch
  have hM0 : 0 ≤ maxStepPrice (sortStepsP t.steps) :=
    maxStepPrice_nonneg (sortStepsP t.steps)
  have hMle := le_maxStepPrice (sortStepsP t.steps)
  refine ⟨?_, ?_, ?_⟩
  · intro a b _ hab
    unfold costForKwhP
    have h1 := codeWalk_mono (sortStepsP t.steps) hw hp a b hab
    have h2 : a * t.fuelAdj ≤ b * t.fuelAdj := mul_le_mul_of_nonneg_right hab hf
    linarith
  · intro ε hε
    set M := maxStepPrice (sortStepsP t.steps) with hMdef
    set K := M + t.fuelAdj with hKdef
    have hK0 : 0 ≤ K := by positivity
    have hbound : ∀ a b : ℚ, a ≤ b →
        costForKwhP b t - costForKwhP a t ≤ K * (b - a) ∧
        0 ≤ costForKwhP b t - costForKwhP a t := by
      intro a b hab
      unfold costForKwhP
      have h1 := codeWalk_lip M hM0 (sortStepsP t.steps) hw hMle a b hab
      have h2 := codeWalk_mono (sortStepsP t.steps) hw hp a b hab
      have h3 : a * t.fuelAdj ≤ b * t.fuelAdj := mul_le_mul_of_nonneg_right hab hf
      constructor
      · have : b * t.fuelAdj - a * t.fuelAdj = t.fuelAdj * (b - a) := by ring
        nlinarith
      · linarith
    have habs : ∀ a b : ℚ,
        |costForKwhP b t - costForKwhP a t| ≤ K * |b - a| := by
      intro a b
      rcases le_total a b with hab | hab
      · obtain ⟨h1, h2⟩ := hbound a b hab
        rw [abs_of_nonneg h2, abs_of_nonneg (by linarith : (0:ℚ) ≤ b - a)]
        exact h1
      · obtain ⟨h1, h2⟩ := hbound b a hab
        rw [abs_sub_comm, abs_of_nonneg h2,
          abs_sub_comm b a, abs_of_nonneg (by linarith : (0:ℚ) ≤ a - b)]
        exact h1
    refine ⟨ε / (K + 1), by positivity, ?_⟩
    intro a b hd
    calc |costForKwhP b t - costForKwhP a t| ≤ K * |b - a| := habs a b
      _ ≤ K * (ε / (K + 1)) := mul_le_mul_of_nonneg_left hd.le hK0
      _ < ε := by
          rw [div_eq_mul_inv]
          rw [show K * (ε * (K + 1)⁻¹) = ε * (K * (K + 1)⁻¹) from by ring]
          have hlt : K * (K + 1)⁻¹ < 1 := by
            rw [mul_inv_lt_iff₀ (by linarith : (0:ℚ) < K + 1)]
            linarith
          nlinarith
  · intro s hs x hx hxe
    have hseg := codeWalk_segment hch s hs x hx hxe
    rw [sub_zero, sub_zero] at hseg
    unfold costForKwhP
    rw [hseg]
    ring

/-- Witness for the amended C8: monotonicity applied to the example
three-step tariff (with fuel adjustment 0) at `1 ≤ 2`, all hypotheses
discharged. -/
theorem claim_C8_cost_monotone_continuous_witness :
    costForKwhP 1 exampleStepTariff ≤ costForKwhP 2 exampleStepTariff := by
  have hsort : sortStepsP exampleStepTariff.steps = exampleSteps := by decide
  have hch : ChainFrom 0 (sortStepsP exampleStepTariff.steps) := by
    rw [hsort]
    exact ChainFrom.cons 0 120 20 _ (by norm_num)
      (ChainFrom.cons 120 300 25 _ (by norm_num) (ChainFrom.last 300 30))
  have hp : ∀ s ∈ sortStepsP exampleStepTariff.steps, 0 ≤ s.pricePerUnit := by
    rw [hsort]
    intro s hs
    fin_cases hs <;> norm_num [exampleSteps]
  exact (claim_C8_cost_monotone_continuous exampleStepTariff hch hp
    (by norm_num [exampleStepTariff])).1 1 2 (by norm_num) (by norm_num)

end OEJP
